import Mathlib

/-!
# Verification of the lead-tracker update engine (`src/app.py`)

This file gives a shallow embedding of the data-frame level logic of the
Streamlit lead tracker `app.py`:

* `highlight_inactivity` (lines 84–98): parse every column whose name
  contains both `"Update"` and `"Date"`, take the per-row maximum, compute
  whole days since that maximum and the `Inactive` flag (`> 14` days);
* the `update_form` submit handler (lines 125–145): append update number
  `c+1` to an existing lead;
* the `entry_form` submit handler (lines 148–172): append a brand-new lead
  row and recompute inactivity;
* the identity decision (line 123) and the inactive-alert display
  (lines 207–216).

A pandas `DataFrame` is modelled as a list of column names plus a list of
rows, where a row is an association list from column names to `Cell`
values.  A cell absent from a row reads as `Cell.nan`, which models the
`NaN` fill that `pd.concat` and `.loc`-extension produce.  Pandas column
assignments (`data[col] = ...`, `data.loc[mask, col] = ...`) act row by
row, so they are modelled as maps over the row list.
-/

set_option linter.unusedVariables false

namespace StudentUpdate

/-! ## Characters, substrings and decimal numerals -/

/-- Executable check that `n` occurs as a contiguous substring of `h`,
modelling Python's `"x" in s` on strings (used at line 86 of `app.py`). -/
def isSub (n : List Char) : List Char → Bool
  | [] => n.isPrefixOf []
  | c :: t => n.isPrefixOf (c :: t) || isSub n t

/-- Python's `needle in hay` substring test. -/
def hasSubstr (hay needle : String) : Bool := isSub needle.data hay.data

theorem isPrefixOf_append_self (l m : List Char) : l.isPrefixOf (l ++ m) = true := by
  induction l with
  | nil => simp [List.isPrefixOf]
  | cons a t ih => simp [List.isPrefixOf, List.cons_append, ih]

theorem isSub_nil (h : List Char) : isSub [] h = true := by
  induction h with
  | nil => simp [isSub, List.isPrefixOf]
  | cons a t ih => simp [isSub, List.isPrefixOf]

theorem isSub_of_pre (n pre post : List Char) : isSub n (pre ++ (n ++ post)) = true := by
  induction pre with
  | nil => cases n with
    | nil => simpa using isSub_nil post
    | cons a t =>
      simp only [List.nil_append, isSub, List.append_eq]
      have := isPrefixOf_append_self (a :: t) post
      simp only [List.cons_append] at this ⊢
      rw [this]
      simp
  | cons a t ih => simp [isSub, ih]

theorem mem_of_isPrefixOf {n h : List Char} (hp : n.isPrefixOf h = true) :
    ∀ c ∈ n, c ∈ h := by
  have := List.isPrefixOf_iff_prefix.mp hp
  exact fun c hc => this.subset hc

theorem mem_of_isSub {n h : List Char} (hs : isSub n h = true) : ∀ c ∈ n, c ∈ h := by
  induction h with
  | nil =>
    simp only [isSub] at hs
    intro c hc
    have := mem_of_isPrefixOf hs c hc
    simp at this
  | cons a t ih =>
    simp only [isSub, Bool.or_eq_true] at hs
    rcases hs with hp | hrec
    · exact mem_of_isPrefixOf hp
    · exact fun c hc => List.mem_cons_of_mem a (ih hrec c hc)

/-- Digits in base 10, least significant first, with structural fuel (any
fuel above the number suffices). -/
def toDigitsRevFuel : Nat → Nat → List Char
  | 0, _ => []
  | fuel + 1, n =>
    if n < 10 then [Nat.digitChar n]
    else Nat.digitChar (n % 10) :: toDigitsRevFuel fuel (n / 10)

/-- Digits of `n` in base 10, least significant first.  Models the decimal
rendering done by Python's f-string `f"Update {update_count} Text"`. -/
def toDigitsRev (n : Nat) : List Char := toDigitsRevFuel (n + 1) n

theorem toDigitsRevFuel_eq_aux {fuel fuel' n : Nat} (h : n < fuel) (h' : n < fuel') :
    toDigitsRevFuel fuel n = toDigitsRevFuel fuel' n := by
  induction fuel generalizing n fuel' with
  | zero => omega
  | succ fuel ih =>
    cases fuel' with
    | zero => omega
    | succ fuel' =>
      by_cases h10 : n < 10
      · simp [toDigitsRevFuel, h10]
      · have hdivn : n / 10 < n := Nat.div_lt_self (by omega) (by omega)
        rw [toDigitsRevFuel, toDigitsRevFuel, if_neg h10, if_neg h10]
        congr 1
        exact ih (by omega) (by omega)

/-- The defining equation of the plain recursive formulation. -/
theorem toDigitsRev_eq (n : Nat) :
    toDigitsRev n
      = (if n < 10 then [Nat.digitChar n]
         else Nat.digitChar (n % 10) :: toDigitsRev (n / 10)) := by
  show toDigitsRevFuel (n + 1) n = _
  rw [toDigitsRevFuel]
  by_cases h10 : n < 10
  · simp [h10]
  · have hdivn : n / 10 < n := Nat.div_lt_self (by omega) (by omega)
    rw [if_neg h10, if_neg h10]
    congr 1
    exact toDigitsRevFuel_eq_aux (by omega) (by omega)

/-- Decimal rendering of a natural number (no sign, no leading zeros). -/
def natStr (n : Nat) : String := String.mk (toDigitsRev n).reverse

/-- Value of a digit character. -/
def digVal (c : Char) : Nat := c.toNat - 48

/-- Read a digit string back as a number (most significant digit first). -/
def digitsVal (l : List Char) : Nat := l.foldl (fun a c => 10 * a + digVal c) 0

theorem digitsVal_append (l : List Char) (c : Char) :
    digitsVal (l ++ [c]) = 10 * digitsVal l + digVal c := by
  simp [digitsVal, List.foldl_append]

theorem digVal_digitChar : ∀ m < 10, digVal (Nat.digitChar m) = m := by decide

theorem digitsVal_toDigitsRev (n : Nat) : digitsVal (toDigitsRev n).reverse = n := by
  induction n using Nat.strong_induction_on with
  | _ n ih =>
    rw [toDigitsRev_eq]
    by_cases h : n < 10
    · simp [h, digitsVal, digVal_digitChar n h]
    · rw [if_neg h, List.reverse_cons, digitsVal_append,
        ih (n / 10) (Nat.div_lt_self (by omega) (by omega)),
        digVal_digitChar (n % 10) (Nat.mod_lt _ (by omega))]
      omega

theorem natStr_inj {a b : Nat} (h : natStr a = natStr b) : a = b := by
  have hd : (toDigitsRev a).reverse = (toDigitsRev b).reverse := by
    have := congrArg String.data h
    simpa [natStr] using this
  have := congrArg digitsVal hd
  rwa [digitsVal_toDigitsRev, digitsVal_toDigitsRev] at this

theorem toDigitsRev_ne_nil (n : Nat) : toDigitsRev n ≠ [] := by
  rw [toDigitsRev_eq]
  by_cases h : n < 10 <;> simp [h]

theorem mem_toDigitsRev {n : Nat} {c : Char} (h : c ∈ toDigitsRev n) :
    ∃ m, m < 10 ∧ c = Nat.digitChar m := by
  induction n using Nat.strong_induction_on with
  | _ n ih =>
    rw [toDigitsRev_eq] at h
    by_cases hn : n < 10
    · rw [if_pos hn] at h
      exact ⟨n, hn, by simpa using h⟩
    · rw [if_neg hn] at h
      rw [List.mem_cons] at h
      rcases h with h | h
      · exact ⟨n % 10, Nat.mod_lt _ (by omega), h⟩
      · exact ih (n / 10) (Nat.div_lt_self (by omega) (by omega)) h

theorem natStr_length_pos (n : Nat) : 1 ≤ (natStr n).length := by
  have := toDigitsRev_ne_nil n
  simp only [natStr, String.length]
  cases hh : (toDigitsRev n).reverse with
  | nil => exact absurd (List.reverse_eq_nil_iff.mp hh) this
  | cons a t => simp

/-! ## Column names

The dynamic column names come from the f-strings
`f"Update {update_count} Text"` / `f"Update {update_count} Date"`
(lines 133–134 of `app.py`); the fixed names from lines 58, 92–94, 107, 113.
-/

/-- `f"Update {k} Text"`. -/
def updTextCol (k : Nat) : String := String.mk ("Update ".data ++ (toDigitsRev k).reverse ++ " Text".data)

/-- `f"Update {k} Date"`. -/
def updDateCol (k : Nat) : String := String.mk ("Update ".data ++ (toDigitsRev k).reverse ++ " Date".data)

/-- First character of a character list, used to separate column names. -/
def headCh : List Char → Char
  | [] => ' '
  | c :: _ => c

/-- Last character of a character list, used to separate column names. -/
def lastCh : List Char → Char
  | [] => ' '
  | [c] => c
  | _ :: c :: t => lastCh (c :: t)

theorem lastCh_append (l m : List Char) (hm : m ≠ []) : lastCh (l ++ m) = lastCh m := by
  induction l with
  | nil => rfl
  | cons a t ih =>
    cases hs : t ++ m with
    | nil =>
      rcases List.append_eq_nil.mp hs with ⟨_, h2⟩
      exact absurd h2 hm
    | cons b u =>
      simp only [List.cons_append, hs, lastCh]
      rw [← hs, ih]

theorem headCh_append_cons (a : Char) (l m : List Char) : headCh ((a :: l) ++ m) = a := rfl

theorem digit_ne_upper {c : Char} (hc : ∃ m, m < 10 ∧ c = Nat.digitChar m) :
    c ≠ 'D' ∧ c ≠ 'T' ∧ c ≠ 'U' ∧ c ≠ 'L' ∧ c ≠ 'I' ∧ c ≠ 'B' ∧ c ≠ 'e' ∧ c ≠ 't' := by
  rcases hc with ⟨m, hm, rfl⟩
  revert m
  decide

theorem updTextCol_data (k : Nat) :
    (updTextCol k).data = "Update ".data ++ (toDigitsRev k).reverse ++ " Text".data := rfl

theorem updDateCol_data (k : Nat) :
    (updDateCol k).data = "Update ".data ++ (toDigitsRev k).reverse ++ " Date".data := rfl

theorem updTextCol_inj {a b : Nat} (h : updTextCol a = updTextCol b) : a = b := by
  have hd := congrArg String.data h
  rw [updTextCol_data, updTextCol_data] at hd
  have h1 : (toDigitsRev a).reverse ++ " Text".data = (toDigitsRev b).reverse ++ " Text".data := by
    rw [List.append_assoc, List.append_assoc] at hd
    exact List.append_cancel_left hd
  have h2 := List.append_cancel_right h1
  have := congrArg digitsVal h2
  rwa [digitsVal_toDigitsRev, digitsVal_toDigitsRev] at this

theorem updDateCol_inj {a b : Nat} (h : updDateCol a = updDateCol b) : a = b := by
  have hd := congrArg String.data h
  rw [updDateCol_data, updDateCol_data] at hd
  have h1 : (toDigitsRev a).reverse ++ " Date".data = (toDigitsRev b).reverse ++ " Date".data := by
    rw [List.append_assoc, List.append_assoc] at hd
    exact List.append_cancel_left hd
  have h2 := List.append_cancel_right h1
  have := congrArg digitsVal h2
  rwa [digitsVal_toDigitsRev, digitsVal_toDigitsRev] at this

theorem lastCh_updTextCol (k : Nat) : lastCh (updTextCol k).data = 't' := by
  rw [updTextCol_data, List.append_assoc, lastCh_append _ _ (by simp)]
  rw [lastCh_append _ _ (by simp [String.data])]
  rfl

theorem lastCh_updDateCol (k : Nat) : lastCh (updDateCol k).data = 'e' := by
  rw [updDateCol_data, List.append_assoc, lastCh_append _ _ (by simp)]
  rw [lastCh_append _ _ (by simp [String.data])]
  rfl

theorem updTextCol_ne_updDateCol (a b : Nat) : updTextCol a ≠ updDateCol b := by
  intro h
  have hlc : lastCh (updTextCol a).data = lastCh (updDateCol b).data := by rw [h]
  rw [lastCh_updTextCol, lastCh_updDateCol] at hlc
  exact absurd hlc (by decide)

theorem headCh_updTextCol (k : Nat) : headCh (updTextCol k).data = 'U' := rfl

theorem headCh_updDateCol (k : Nat) : headCh (updDateCol k).data = 'U' := rfl

theorem updTextCol_length (k : Nat) : (updTextCol k).length = 12 + (toDigitsRev k).length := by
  simp [updTextCol, String.length, List.length_append, String.data]
  omega

theorem updDateCol_length (k : Nat) : (updDateCol k).length = 12 + (toDigitsRev k).length := by
  simp [updDateCol, String.length, List.length_append, String.data]
  omega

theorem toDigitsRev_length_pos (k : Nat) : 1 ≤ (toDigitsRev k).length := by
  cases hh : toDigitsRev k with
  | nil => exact absurd hh (toDigitsRev_ne_nil k)
  | cons a t => simp

/-- `"Update k Text"` differs from every fixed column name the handlers and
`highlight_inactivity` touch. -/
theorem updTextCol_ne_fixed (k : Nat) :
    updTextCol k ≠ "Update Count" ∧ updTextCol k ≠ "Lead Name" ∧
    updTextCol k ≠ "District" ∧ updTextCol k ≠ "Branch" ∧
    updTextCol k ≠ "Last Update Date" ∧ updTextCol k ≠ "Days Since Last Update" ∧
    updTextCol k ≠ "Inactive" := by
  refine ⟨?_, ?_, ?_, ?_, ?_, ?_, ?_⟩
  · intro h
    have hl : (updTextCol k).length = ("Update Count" : String).length := by rw [h]
    rw [updTextCol_length] at hl
    have h12 : ("Update Count" : String).length = 12 := by decide
    have := toDigitsRev_length_pos k
    omega
  all_goals
    intro h
    first
    | (have hh : headCh (updTextCol k).data = headCh ("Lead Name" : String).data := by rw [h]
       rw [headCh_updTextCol] at hh
       exact absurd hh (by decide))
    | (have hh : headCh (updTextCol k).data = headCh ("District" : String).data := by rw [h]
       rw [headCh_updTextCol] at hh
       exact absurd hh (by decide))
    | (have hh : headCh (updTextCol k).data = headCh ("Branch" : String).data := by rw [h]
       rw [headCh_updTextCol] at hh
       exact absurd hh (by decide))
    | (have hh : headCh (updTextCol k).data = headCh ("Last Update Date" : String).data := by rw [h]
       rw [headCh_updTextCol] at hh
       exact absurd hh (by decide))
    | (have hh : headCh (updTextCol k).data = headCh ("Days Since Last Update" : String).data := by rw [h]
       rw [headCh_updTextCol] at hh
       exact absurd hh (by decide))
    | (have hh : headCh (updTextCol k).data = headCh ("Inactive" : String).data := by rw [h]
       rw [headCh_updTextCol] at hh
       exact absurd hh (by decide))

/-- `"Update k Date"` differs from every fixed column name the handlers and
`highlight_inactivity` touch. -/
theorem updDateCol_ne_fixed (k : Nat) :
    updDateCol k ≠ "Update Count" ∧ updDateCol k ≠ "Lead Name" ∧
    updDateCol k ≠ "District" ∧ updDateCol k ≠ "Branch" ∧
    updDateCol k ≠ "Last Update Date" ∧ updDateCol k ≠ "Days Since Last Update" ∧
    updDateCol k ≠ "Inactive" := by
  refine ⟨?_, ?_, ?_, ?_, ?_, ?_, ?_⟩
  · intro h
    have hl : (updDateCol k).length = ("Update Count" : String).length := by rw [h]
    rw [updDateCol_length] at hl
    have h12 : ("Update Count" : String).length = 12 := by decide
    have := toDigitsRev_length_pos k
    omega
  all_goals
    intro h
    first
    | (have hh : headCh (updDateCol k).data = headCh ("Lead Name" : String).data := by rw [h]
       rw [headCh_updDateCol] at hh
       exact absurd hh (by decide))
    | (have hh : headCh (updDateCol k).data = headCh ("District" : String).data := by rw [h]
       rw [headCh_updDateCol] at hh
       exact absurd hh (by decide))
    | (have hh : headCh (updDateCol k).data = headCh ("Branch" : String).data := by rw [h]
       rw [headCh_updDateCol] at hh
       exact absurd hh (by decide))
    | (have hh : headCh (updDateCol k).data = headCh ("Last Update Date" : String).data := by rw [h]
       rw [headCh_updDateCol] at hh
       exact absurd hh (by decide))
    | (have hh : headCh (updDateCol k).data = headCh ("Days Since Last Update" : String).data := by rw [h]
       rw [headCh_updDateCol] at hh
       exact absurd hh (by decide))
    | (have hh : headCh (updDateCol k).data = headCh ("Inactive" : String).data := by rw [h]
       rw [headCh_updDateCol] at hh
       exact absurd hh (by decide))

/-- `"Update"` and `"Date"` are both substrings of `"Update k Date"`,
so the date columns always pass the filter at line 86 of `app.py`. -/
theorem hasSubstr_updDateCol (k : Nat) :
    hasSubstr (updDateCol k) "Update" = true ∧ hasSubstr (updDateCol k) "Date" = true := by
  constructor
  · show isSub "Update".data (updDateCol k).data = true
    rw [updDateCol_data]
    have : "Update ".data ++ (toDigitsRev k).reverse ++ " Date".data
        = [] ++ ("Update".data ++ ([' '] ++ (toDigitsRev k).reverse ++ " Date".data)) := by
      simp [String.data]
    rw [this]
    exact isSub_of_pre _ _ _
  · show isSub "Date".data (updDateCol k).data = true
    rw [updDateCol_data]
    have : "Update ".data ++ (toDigitsRev k).reverse ++ " Date".data
        = ("Update ".data ++ (toDigitsRev k).reverse ++ [' ']) ++ ("Date".data ++ []) := by
      simp [String.data]
    rw [this]
    exact isSub_of_pre _ _ _

/-- No capital `'D'` occurs in `"Update k Text"`, hence `"Date"` is not a
substring of it: text columns never pass the filter at line 86. -/
theorem hasSubstr_updTextCol_Date (k : Nat) : hasSubstr (updTextCol k) "Date" = false := by
  by_contra hne
  have hs : isSub "Date".data (updTextCol k).data = true := by
    revert hne
    cases h : hasSubstr (updTextCol k) "Date" <;> simp [hasSubstr] at h ⊢
    exact h
  have hD : 'D' ∈ (updTextCol k).data := mem_of_isSub hs 'D' (by decide)
  rw [updTextCol_data] at hD
  rcases List.mem_append.mp hD with hD | hD
  · rcases List.mem_append.mp hD with hD | hD
    · simp [String.data] at hD
    · have := digit_ne_upper (mem_toDigitsRev (List.mem_reverse.mp hD))
      exact this.1 rfl
  · simp [String.data] at hD

/-! ## Dates

`pd.to_datetime(col, errors='coerce')` (line 90 of `app.py`) parses the
`YYYY-MM-DD` strings produced by `update_date.strftime('%Y-%m-%d')`
(lines 141, 166) into timestamps, and turns blanks/unparseable values into
`NaT`.  A parsed date is modelled as its civil day number (days since
0000-03-01, Hinnant's algorithm), `NaT` as `none`.  The reference instant
`datetime.today()` (line 85) is modelled in seconds on the same scale, so
that `(today - date).dt.days` (line 93) is the floor of the difference in
days. -/

/-- Gregorian leap year. -/
def isLeap (y : Nat) : Bool := y % 4 == 0 && (y % 100 != 0 || y % 400 == 0)

/-- Length of month `m` in year `y`. -/
def daysInMonth (y m : Nat) : Nat :=
  if m == 2 then (if isLeap y then 29 else 28)
  else if m == 4 || m == 6 || m == 9 || m == 11 then 30
  else 31

/-- Day number of `y-m-d` (days since 0000-03-01), for `1 ≤ y`,
`1 ≤ m ≤ 12`.  Standard civil-from-days inverse (Hinnant). -/
def daysFromCivil (y m d : Nat) : Nat :=
  let yy := if m ≤ 2 then y - 1 else y
  let era := yy / 400
  let yoe := yy % 400
  let mp := (m + 9) % 12
  let doy := (153 * mp + 2) / 5 + d - 1
  let doe := yoe * 365 + yoe / 4 - yoe / 100 + doy
  era * 146097 + doe

/-- Is `c` one of `'0'`–`'9'`? -/
def isDigitCh (c : Char) : Bool := decide ('0' ≤ c ∧ c ≤ '9')

/-- Parse a `YYYY-MM-DD` string into a day number; `none` models `NaT`
for blanks and unparseable values (`errors='coerce'`).  `pd.to_datetime`
accepts further formats, but `%Y-%m-%d` is the only format the app ever
writes, so only it is modelled; everything else coerces to `NaT`. -/
def parseDate (s : String) : Option Nat :=
  match s.data with
  | [y1, y2, y3, y4, s1, m1, m2, s2, d1, d2] =>
    if (s1 = '-' ∧ s2 = '-' ∧ isDigitCh y1 ∧ isDigitCh y2 ∧ isDigitCh y3 ∧ isDigitCh y4 ∧
        isDigitCh m1 ∧ isDigitCh m2 ∧ isDigitCh d1 ∧ isDigitCh d2 : Bool) = true then
      let y := digitsVal [y1, y2, y3, y4]
      let m := digitsVal [m1, m2]
      let d := digitsVal [d1, d2]
      if 1 ≤ y ∧ 1 ≤ m ∧ m ≤ 12 ∧ 1 ≤ d ∧ d ≤ daysInMonth y m then
        some (daysFromCivil y m d)
      else none
    else none
  | _ => none

/-- Seconds per day; the reference instant is in seconds, dates in days. -/
def secPerDay : Int := 86400

/-- `(today - lastUpdateDate).dt.days`: floor of the difference in whole
days between the reference instant `t` (seconds) and day number `d`. -/
def daysBetween (t : Int) (d : Nat) : Int := Int.fdiv (t - secPerDay * (d : Int)) secPerDay

theorem daysBetween_mono {t t' : Int} (d : Nat) (h : t ≤ t') :
    daysBetween t d ≤ daysBetween t' d := by
  unfold daysBetween secPerDay
  rw [Int.fdiv_eq_ediv _ (by norm_num), Int.fdiv_eq_ediv _ (by norm_num)]
  exact Int.ediv_le_ediv (by norm_num) (by omega)

/-! ## Cells, rows and data frames -/

/-- One cell of the data frame.

* `str`: a Python/pandas string cell;
* `nat`: the integer update count written at lines 142 and 164;
* `dt`: a `datetime64` cell produced by `pd.to_datetime` (`none` = `NaT`);
* `days`: a cell of the `Days Since Last Update` column (`none` = `NaN`);
* `bool`: a cell of the `Inactive` column;
* `nan`: the `NaN` fill of `pd.concat` / missing values. -/
inductive Cell where
  | str : String → Cell
  | nat : Nat → Cell
  | dt : Option Nat → Cell
  | days : Option Int → Cell
  | bool : Bool → Cell
  | nan : Cell
deriving DecidableEq, Repr

/-- A row: an association list from column name to cell.  A name not bound
in the row reads as `NaN`. -/
def Row : Type := List (String × Cell)

instance : DecidableEq Row := inferInstanceAs (DecidableEq (List (String × Cell)))

instance : Repr Row := inferInstanceAs (Repr (List (String × Cell)))

/-- Read a cell; an absent column reads as `NaN`. -/
def getCell : Row → String → Cell
  | [], _ => .nan
  | (c', v) :: r, c => if c' = c then v else getCell r c

/-- Write a cell, replacing the first binding of the column or appending a
new binding. -/
def setCell : Row → String → Cell → Row
  | [], c, v => [(c, v)]
  | (c', v') :: r, c, v => if c' = c then (c, v) :: r else (c', v') :: setCell r c v

/-- Does the row bind the column? -/
def hasKey : Row → String → Bool
  | [], _ => false
  | (c', _) :: r, c => c' = c || hasKey r c

/-- The column names bound by the row. -/
def rowKeys (r : Row) : List String := r.map Prod.fst

theorem getCell_setCell_same (r : Row) (c : String) (v : Cell) :
    getCell (setCell r c v) c = v := by
  induction r with
  | nil => simp [setCell, getCell]
  | cons p t ih =>
    obtain ⟨c', v'⟩ := p
    by_cases h : c' = c
    · simp [setCell, h, getCell]
    · simp [setCell, h, getCell, ih]

theorem getCell_setCell_ne (r : Row) (c c' : String) (v : Cell) (h : c ≠ c') :
    getCell (setCell r c v) c' = getCell r c' := by
  induction r with
  | nil => simp [setCell, getCell, h]
  | cons p t ih =>
    obtain ⟨c0, v0⟩ := p
    by_cases h0 : c0 = c
    · subst h0
      simp [setCell, getCell, h]
    · simp [setCell, h0, getCell, ih]

theorem hasKey_setCell (r : Row) (c c' : String) (v : Cell) :
    hasKey (setCell r c v) c' = (hasKey r c' || c = c') := by
  induction r with
  | nil => simp [setCell, hasKey]
  | cons p t ih =>
    obtain ⟨c0, v0⟩ := p
    by_cases h0 : c0 = c
    · subst h0
      by_cases h1 : c0 = c'
      · simp [setCell, hasKey, h1]
      · simp [setCell, hasKey, h1, ih]
    · simp only [setCell, h0, if_false, hasKey, ih]
      by_cases h1 : c0 = c' <;> simp [h1, Bool.or_assoc, Bool.or_comm]

theorem setCell_setCell (r : Row) (c : String) (v w : Cell) :
    setCell (setCell r c v) c w = setCell r c w := by
  induction r with
  | nil => simp [setCell]
  | cons p t ih =>
    obtain ⟨c0, v0⟩ := p
    by_cases h0 : c0 = c
    · simp [setCell, h0]
    · simp [setCell, h0, ih]

theorem setCell_id (r : Row) (c : String) (hk : hasKey r c = true)
    (hv : getCell r c = v) : setCell r c v = r := by
  induction r with
  | nil => simp [hasKey] at hk
  | cons p t ih =>
    obtain ⟨c0, v0⟩ := p
    by_cases h0 : c0 = c
    · subst h0
      simp [getCell] at hv
      simp [setCell, hv]
    · simp only [hasKey, h0, decide_eq_false h0, Bool.false_or] at hk
      simp only [getCell, h0, if_false] at hv
      simp [setCell, h0, ih hk hv]

theorem getCell_eq_nan_of_not_hasKey (r : Row) (c : String) (h : hasKey r c = false) :
    getCell r c = .nan := by
  induction r with
  | nil => rfl
  | cons p t ih =>
    obtain ⟨c0, v0⟩ := p
    simp only [hasKey, Bool.or_eq_false_iff] at h
    have h0 : c0 ≠ c := by simpa using h.1
    simp [getCell, h0, ih h.2]

theorem hasKey_of_getCell_ne_nan (r : Row) (c : String) (h : getCell r c ≠ .nan) :
    hasKey r c = true := by
  by_contra hk
  exact h (getCell_eq_nan_of_not_hasKey r c (by simpa using hk))

theorem rowKeys_setCell (r : Row) (c : String) (v : Cell) :
    ∀ x ∈ rowKeys (setCell r c v), x ∈ rowKeys r ∨ x = c := by
  induction r with
  | nil => simp [setCell, rowKeys]
  | cons p t ih =>
    obtain ⟨c0, v0⟩ := p
    intro x hx
    by_cases h0 : c0 = c
    · subst h0
      simp only [setCell, if_pos rfl, rowKeys, List.map_cons] at hx
      cases List.mem_cons.mp hx with
      | inl h1 => right; exact h1
      | inr h2 =>
        left
        simp only [rowKeys, List.map_cons]
        exact List.mem_cons.mpr (Or.inr h2)
    · simp only [setCell, h0, if_false, rowKeys, List.map_cons] at hx
      simp only [rowKeys, List.map_cons]
      cases List.mem_cons.mp hx with
      | inl h1 => left; exact List.mem_cons.mpr (Or.inl h1)
      | inr h2 =>
        cases ih x h2 with
        | inl h3 => left; exact List.mem_cons.mpr (Or.inr h3)
        | inr h3 => right; exact h3

/-- A data frame: ordered column labels plus rows.  A column in `cols` that
a row does not bind reads as `NaN` in that row, exactly like the `NaN`
fill of `pd.concat` / `.loc`-extension. -/
structure DF where
  cols : List String
  rows : List Row
deriving DecidableEq, Repr

/-- Append a column label if it is not already present (pandas appends new
column labels at the end, and keeps the position of existing ones). -/
def addCol (cs : List String) (c : String) : List String :=
  if c ∈ cs then cs else cs ++ [c]

/-- `data[col] = v` with a scalar `v`: broadcast to every row, creating the
column if needed (lines 137–138 of `app.py`). -/
def setColConst (df : DF) (c : String) (v : Cell) : DF :=
  { cols := addCol df.cols c, rows := df.rows.map (fun r => setCell r c v) }

/-- `data.loc[mask, col] = v` (lines 140–142 of `app.py`): set the cell in
the rows satisfying the mask; rows not matching an already-absent column
keep no binding, i.e. read `NaN`, as pandas fills. -/
def locSet (df : DF) (c : String) (p : Row → Bool) (v : Cell) : DF :=
  { cols := addCol df.cols c, rows := df.rows.map (fun r => if p r then setCell r c v else r) }

/-- `pd.concat([df, pd.DataFrame([row])], ignore_index=True)` (line 169):
column labels become the union (existing order first, new labels after),
the new row goes last, and missing cells read `NaN`. -/
def concatRow (df : DF) (r : Row) : DF :=
  { cols := (rowKeys r).foldl addCol df.cols, rows := df.rows ++ [r] }

/-! ## `highlight_inactivity` (lines 84–98 of `app.py`) -/

/-- Line 86: `[col for col in data.columns if "Update" in col and "Date" in col]`. -/
def updateDateCols (cs : List String) : List String :=
  cs.filter (fun c => hasSubstr c "Update" && hasSubstr c "Date")

/-- `pd.to_datetime(cell, errors='coerce')` on one cell.  Strings are
parsed (unparseable → `NaT`), datetime cells pass through, `NaN` coerces
to `NaT`.  The remaining cell kinds never occur in a date column in any of
the modelled flows; they also coerce to `NaT`. -/
def toDatetime : Cell → Option Nat
  | .str s => parseDate s
  | .dt v => v
  | _ => none

/-- The datetime value of an already-converted cell (`NaT` → `none`).
After line 90 every cell of a date column is a `dt` cell, which is what
`.max(axis=1)` at line 92 consumes. -/
def dtVal : Cell → Option Nat
  | .dt v => v
  | _ => none

/-- Maximum of a list of day numbers; `none` iff the list is empty,
modelling `max(axis=1)` skipping `NaT` and returning `NaT` when all
values are `NaT`. -/
def listMax : List Nat → Option Nat
  | [] => none
  | a :: t => some (t.foldl max a)

/-- Line 89–90: `for col in update_date_columns: data[col] = pd.to_datetime(data[col], ...)`,
restricted to one row (the loop is columnwise, but each column assignment
is independent per row). -/
def parseRow (udCols : List String) (r : Row) : Row :=
  udCols.foldl (fun r c => setCell r c (.dt (toDatetime (getCell r c)))) r

/-- The `Inactive` value at line 94: `days > 14`, where a `NaN` comparison
yields `False`. -/
def inactiveOf (ds : Option Int) : Bool :=
  match ds with
  | some k => decide (k > 14)
  | none => false

/-- Lines 89–94 for a single row: parse the date columns, take the row
maximum into `Last Update Date`, the floored day difference into
`Days Since Last Update` and the threshold comparison into `Inactive`. -/
def processRow (t : Int) (udCols : List String) (r : Row) : Row :=
  let r1 := parseRow udCols r
  let m := listMax (udCols.filterMap (fun c => dtVal (getCell r1 c)))
  let ds := m.map (daysBetween t)
  let r2 := setCell r1 "Last Update Date" (.dt m)
  let r3 := setCell r2 "Days Since Last Update" (.days ds)
  setCell r3 "Inactive" (.bool (inactiveOf ds))

/-- `highlight_inactivity(data)` (lines 84–98), with the global
`datetime.today()` made explicit as the parameter `t`.  The source mutates
`data` in place and returns it; under explicit state passing the returned
table is also the state of the caller's argument after the call. -/
def highlight_inactivity (t : Int) (df : DF) : DF :=
  let udCols := updateDateCols df.cols
  if udCols.isEmpty then
    -- line 96: `data["Inactive"] = False`
    { cols := addCol df.cols "Inactive",
      rows := df.rows.map (fun r => setCell r "Inactive" (.bool false)) }
  else
    { cols := addCol (addCol (addCol df.cols "Last Update Date")
        "Days Since Last Update") "Inactive",
      rows := df.rows.map (processRow t udCols) }

/-- The state of the caller's dataframe after `highlight_inactivity(data)`
returns.  The source body assigns columns of its argument in place
(`data[col] = pd.to_datetime(...)` at line 90 and the assignments of lines
92–94 and 96 all mutate the `data` object the caller passed), and line 98
returns that same object: under explicit state passing, the argument's
post-call state is exactly the returned table. -/
def argAfterHighlight (t : Int) (df : DF) : DF := highlight_inactivity t df

/-! ## The submit handlers (lines 113–172 of `app.py`) -/

/-- `int(cell)` on an update-count cell: integer cells pass through,
numeric strings parse; anything else raises in Python (modelled as
`none`). -/
def toCount : Cell → Option Nat
  | .nat n => some n
  | .str s =>
    match s.data with
    | [] => none
    | l => if l.all isDigitCh then some (digitsVal l) else none
  | _ => none

/-- Line 123 / line 131 mask: `students_data["Lead Name"] == selected_name`. -/
def nameMask (name : String) (r : Row) : Bool := getCell r "Lead Name" == .str name

/-- Line 123: `selected_name in students_data["Lead Name"].values` —
the identity decision is an exact, case-sensitive string match. -/
def leadExists (df : DF) (name : String) : Bool := df.rows.any (nameMask name)

/-- ASCII lowercasing of one character, modelling Python's `str.lower()`
on the ASCII names the app handles. -/
def lowerCh (c : Char) : Char :=
  if 'A' ≤ c ∧ c ≤ 'Z' then Char.ofNat (c.toNat + 32) else c

/-- Python's `s.lower()` (ASCII). -/
def strLower (s : String) : String := String.mk (s.data.map lowerCh)

/-- Line 118: `[name for name in existing_names if selected_name.lower() in name.lower()]`
— the case-insensitive substring match used only to build the suggestion
list for the select box. -/
def matchingNames (df : DF) (query : String) : List String :=
  ((df.rows.map (fun r => getCell r "Lead Name")).filterMap
    (fun c => match c with | .str s => some s | _ => none)).filter
    (fun s => hasSubstr (strLower s) (strLower query))

/-- Outcome of a form submission.

* `saved df` — the handler ran and `save_data` was called with `df`;
* `noAction df` — the guard (`if submit_button and update_text:` /
  line 156) failed: nothing ran, the table is unchanged and no message of
  any kind is produced;
* `exn` — an uncaught Python exception (`IndexError` from `.values[0]` or
  `ValueError` from `int(...)`; unreachable in the modelled flows);
* `validationError f` — the `ValidationError` referencing field `f` that
  the specification expects; present so the specified behaviour can be
  stated, the source never produces it. -/
inductive SubmitOutcome where
  | saved : DF → SubmitOutcome
  | noAction : DF → SubmitOutcome
  | exn : SubmitOutcome
  | validationError : String → SubmitOutcome
deriving DecidableEq, Repr

/-- Is the outcome the `ValidationError` the specification expects? -/
def SubmitOutcome.isValidationError : SubmitOutcome → Bool
  | .validationError _ => true
  | _ => false

/-- The `update_form` submit handler, lines 125–145 of `app.py` (branch
taken when the typed name exactly matches an existing `Lead Name`).
`note` is `update_text`, `dateStr` is `update_date.strftime('%Y-%m-%d')`. -/
def update_form_submit (name note dateStr : String) (df : DF) : SubmitOutcome :=
  if note = "" then .noAction df  -- line 130: `if submit_button and update_text:`
  else
    match df.rows.find? (nameMask name) with
    | none => .exn  -- line 132 `.values[0]` raises IndexError
    | some r0 =>
      match toCount (getCell r0 "Update Count") with
      | none => .exn  -- line 132 `int(...)` raises
      | some c0 =>
        let c := c0 + 1
        let tcol := updTextCol c
        let dcol := updDateCol c
        -- lines 136–138: create both columns, blank, if the text column is new
        let df1 := if tcol ∈ df.cols then df
                   else setColConst (setColConst df tcol (.str "")) dcol (.str "")
        -- lines 140–142
        let df2 := locSet df1 tcol (nameMask name) (.str note)
        let df3 := locSet df2 dcol (nameMask name) (.str dateStr)
        let df4 := locSet df3 "Update Count" (nameMask name) (.nat c)
        .saved df4

/-- The `entry_form` submit handler, lines 148–172 of `app.py` (branch
taken when the typed name does not exactly match an existing lead).
`district` and `branch` come from the branch directory (external Excel
file, not part of this repository); `phone` is the text input of line 151.
Note that `phone` is required non-empty by the guard at line 156 but does
not appear in `new_data` (lines 160–167). -/
def entry_form_submit (t : Int) (name district branch phone note dateStr : String)
    (df : DF) : SubmitOutcome :=
  if name = "" ∨ phone = "" ∨ note = "" then .noAction df  -- line 156
  else
    let newRow : Row :=
      [("Lead Name", .str name), ("District", .str district), ("Branch", .str branch),
       ("Update Count", .nat 1), (updTextCol 1, .str note), (updDateCol 1, .str dateStr)]
    -- lines 169–170
    .saved (highlight_inactivity t (concatRow df newRow))

/-- One full sidebar interaction (lines 123–172): the identity decision of
line 123 dispatches between the two submit handlers. -/
def submitLead (t : Int) (name district branch phone note dateStr : String)
    (df : DF) : SubmitOutcome :=
  if name ≠ "" ∧ leadExists df name then update_form_submit name note dateStr df
  else entry_form_submit t name district branch phone note dateStr df

/-- Lines 207–214: recompute inactivity, filter the inactive rows, project
`Lead Name` and `Days Since Last Update` — the table shown under
"Alerts for Inactive Leads", in table order. -/
def getAlerts (t : Int) (df : DF) : List (Cell × Cell) :=
  (((highlight_inactivity t df).rows.filter
      (fun r => getCell r "Inactive" == .bool true)).map
    (fun r => (getCell r "Lead Name", getCell r "Days Since Last Update")))

/-- The empty table of lines 58 / 107:
`pd.DataFrame(columns=["Lead Name", "District", "Branch", "Update Count"])`. -/
def emptyDF : DF :=
  { cols := ["Lead Name", "District", "Branch", "Update Count"], rows := [] }

/-- One interaction of a script: a submission applied to the current
table; a submission whose guard failed (or that raised) leaves the table
as it was. -/
structure SubmitInput where
  t : Int
  name : String
  district : String
  branch : String
  phone : String
  note : String
  dateStr : String
deriving DecidableEq, Repr

/-- Apply one submission to the table. -/
def stepTable (df : DF) (inp : SubmitInput) : DF :=
  match submitLead inp.t inp.name inp.district inp.branch inp.phone inp.note inp.dateStr df with
  | .saved df' => df'
  | _ => df

/-- Run a whole script of submissions from the empty table. -/
def runScript (script : List SubmitInput) : DF := script.foldl stepTable emptyDF

/-! ## Basic facts about `parseRow`, `processRow` and `highlight_inactivity` -/

theorem getCell_parseRow (udCols : List String) (r : Row) (c : String) :
    getCell (parseRow udCols r) c =
      if c ∈ udCols then .dt (toDatetime (getCell r c)) else getCell r c := by
  induction udCols generalizing r with
  | nil => simp [parseRow]
  | cons a t ih =>
    show getCell (parseRow t (setCell r a (.dt (toDatetime (getCell r a))))) c = _
    rw [ih]
    by_cases hct : c ∈ t
    · rw [if_pos hct, if_pos (List.mem_cons.mpr (Or.inr hct))]
      by_cases hca : c = a
      · subst hca
        rw [getCell_setCell_same]
        rfl
      · rw [getCell_setCell_ne _ _ _ _ (fun h => hca h.symm)]
    · rw [if_neg hct]
      by_cases hca : c = a
      · subst hca
        rw [getCell_setCell_same, if_pos (List.mem_cons.mpr (Or.inl rfl))]
      · rw [getCell_setCell_ne _ _ _ _ (fun h => hca h.symm),
          if_neg (by simp [List.mem_cons, hca, hct])]

theorem hasKey_parseRow (udCols : List String) (r : Row) (c : String) :
    hasKey (parseRow udCols r) c = (hasKey r c || c ∈ udCols) := by
  induction udCols generalizing r with
  | nil => simp [parseRow]
  | cons a t ih =>
    show hasKey (parseRow t (setCell r a (.dt (toDatetime (getCell r a))))) c = _
    rw [ih, hasKey_setCell]
    by_cases hca : a = c
    · subst hca
      simp [List.mem_cons]
    · by_cases hct : c ∈ t
      · simp [List.mem_cons, hca, hct]
      · simp [List.mem_cons, hca, hct]
        exact fun h => absurd h.symm hca

theorem parseRow_id (udCols : List String) (r : Row)
    (h : ∀ c ∈ udCols, hasKey r c = true ∧ ∃ v, getCell r c = .dt v) :
    parseRow udCols r = r := by
  induction udCols with
  | nil => rfl
  | cons a t ih =>
    obtain ⟨hk, v, hv⟩ := h a (List.mem_cons.mpr (Or.inl rfl))
    show parseRow t (setCell r a (.dt (toDatetime (getCell r a)))) = r
    rw [hv]
    show parseRow t (setCell r a (.dt v)) = r
    rw [setCell_id r a hk hv]
    exact ih (fun c hc => h c (List.mem_cons.mpr (Or.inr hc)))

theorem rowKeys_parseRow (udCols : List String) (r : Row) :
    ∀ x ∈ rowKeys (parseRow udCols r), x ∈ rowKeys r ∨ x ∈ udCols := by
  induction udCols generalizing r with
  | nil => intro x hx; left; exact hx
  | cons a t ih =>
    intro x hx
    have := ih (setCell r a (.dt (toDatetime (getCell r a)))) x hx
    rcases this with h | h
    · rcases rowKeys_setCell r a _ x h with h2 | h2
      · left; exact h2
      · right; exact List.mem_cons.mpr (Or.inl h2)
    · right; exact List.mem_cons.mpr (Or.inr h)

theorem foldl_max_mem (t : List Nat) (a : Nat) : t.foldl max a = a ∨ t.foldl max a ∈ t := by
  induction t generalizing a with
  | nil => left; rfl
  | cons b u ih =>
    have hfold : (b :: u).foldl max a = u.foldl max (max a b) := rfl
    rw [hfold]
    rcases ih (max a b) with h | h
    · rcases max_choice a b with hm | hm
      · left; rw [h, hm]
      · right
        rw [h, hm]
        exact List.mem_cons_self b u
    · right; exact List.mem_cons.mpr (Or.inr h)

theorem le_foldl_max_init (t : List Nat) (a : Nat) : a ≤ t.foldl max a := by
  induction t generalizing a with
  | nil => exact le_refl a
  | cons b u ih => exact le_trans (le_max_left a b) (ih (max a b))

theorem le_foldl_max_of_mem (t : List Nat) (a x : Nat) (hx : x ∈ t) : x ≤ t.foldl max a := by
  induction t generalizing a with
  | nil => cases hx
  | cons b u ih =>
    show x ≤ u.foldl max (max a b)
    rcases List.mem_cons.mp hx with rfl | hx
    · exact le_trans (le_max_right a x) (le_foldl_max_init u (max a x))
    · exact ih (max a b) hx

/-- Characterisation of `listMax`. -/
theorem listMax_eq_none_iff (l : List Nat) : listMax l = none ↔ l = [] := by
  cases l <;> simp [listMax]

theorem listMax_eq_some_iff (l : List Nat) (m : Nat) :
    listMax l = some m ↔ m ∈ l ∧ ∀ x ∈ l, x ≤ m := by
  cases l with
  | nil => simp [listMax]
  | cons a t =>
    simp only [listMax, Option.some_inj]
    constructor
    · intro heq
      constructor
      · rcases foldl_max_mem t a with h | h
        · rw [← heq, h]; exact List.mem_cons_self a t
        · rw [← heq]; exact List.mem_cons.mpr (Or.inr h)
      · intro x hx
        rw [← heq]
        rcases List.mem_cons.mp hx with rfl | hx
        · exact le_foldl_max_init t x
        · exact le_foldl_max_of_mem t a x hx
    · rintro ⟨hm, hb⟩
      apply le_antisymm
      · rcases foldl_max_mem t a with h | h
        · rw [h]; exact hb a (List.mem_cons_self a t)
        · exact hb _ (List.mem_cons.mpr (Or.inr h))
      · rcases List.mem_cons.mp hm with rfl | hm
        · exact le_foldl_max_init t m
        · exact le_foldl_max_of_mem t a m hm

/-- The derived last-update value of one row: the maximum parseable date
among the row's update-date cells (line 92 of `app.py`, after the
conversion of line 90). -/
def rowLastUpdate (udCols : List String) (r : Row) : Option Nat :=
  listMax (udCols.filterMap (fun c => toDatetime (getCell r c)))

theorem not_mem_updateDateCols {c : String}
    (h : (hasSubstr c "Update" && hasSubstr c "Date") = false) (cs : List String) :
    c ∉ updateDateCols cs := by
  intro hm
  rw [updateDateCols, List.mem_filter] at hm
  rw [h] at hm
  exact absurd hm.2 (by simp)

theorem days_not_ud (cs : List String) : "Days Since Last Update" ∉ updateDateCols cs :=
  not_mem_updateDateCols (by decide) cs

theorem inactive_not_ud (cs : List String) : "Inactive" ∉ updateDateCols cs :=
  not_mem_updateDateCols (by decide) cs

theorem processRow_max (udCols : List String) (r : Row) :
    listMax (udCols.filterMap (fun c => dtVal (getCell (parseRow udCols r) c)))
      = rowLastUpdate udCols r := by
  unfold rowLastUpdate
  congr 1
  apply List.filterMap_congr
  intro c hc
  rw [getCell_parseRow, if_pos hc]
  rfl

theorem getCell_processRow_inactive (t : Int) (udCols : List String) (r : Row) :
    getCell (processRow t udCols r) "Inactive"
      = .bool (inactiveOf ((rowLastUpdate udCols r).map (daysBetween t))) := by
  unfold processRow
  rw [getCell_setCell_same, processRow_max]

theorem getCell_processRow_days (t : Int) (udCols : List String) (r : Row) :
    getCell (processRow t udCols r) "Days Since Last Update"
      = .days ((rowLastUpdate udCols r).map (daysBetween t)) := by
  unfold processRow
  rw [getCell_setCell_ne _ _ _ _ (by decide), getCell_setCell_same, processRow_max]

theorem getCell_processRow_last (t : Int) (udCols : List String) (r : Row) :
    getCell (processRow t udCols r) "Last Update Date"
      = .dt (rowLastUpdate udCols r) := by
  unfold processRow
  rw [getCell_setCell_ne _ _ _ _ (by decide), getCell_setCell_ne _ _ _ _ (by decide),
    getCell_setCell_same, processRow_max]

theorem getCell_processRow_ud (t : Int) (udCols : List String) (r : Row) (c : String)
    (hc : c ∈ udCols) (h1 : c ≠ "Last Update Date") (h2 : c ≠ "Days Since Last Update")
    (h3 : c ≠ "Inactive") :
    getCell (processRow t udCols r) c = .dt (toDatetime (getCell r c)) := by
  unfold processRow
  rw [getCell_setCell_ne _ _ _ _ (Ne.symm h3), getCell_setCell_ne _ _ _ _ (Ne.symm h2),
    getCell_setCell_ne _ _ _ _ (Ne.symm h1), getCell_parseRow, if_pos hc]

theorem getCell_processRow_frame (t : Int) (udCols : List String) (r : Row) (c : String)
    (hc : c ∉ udCols) (h1 : c ≠ "Last Update Date") (h2 : c ≠ "Days Since Last Update")
    (h3 : c ≠ "Inactive") :
    getCell (processRow t udCols r) c = getCell r c := by
  unfold processRow
  rw [getCell_setCell_ne _ _ _ _ (Ne.symm h3), getCell_setCell_ne _ _ _ _ (Ne.symm h2),
    getCell_setCell_ne _ _ _ _ (Ne.symm h1), getCell_parseRow, if_neg hc]

theorem hasKey_processRow (t : Int) (udCols : List String) (r : Row) (c : String) :
    hasKey (processRow t udCols r) c
      = (hasKey r c || c ∈ udCols || c = "Last Update Date"
          || c = "Days Since Last Update" || c = "Inactive") := by
  unfold processRow
  rw [hasKey_setCell, hasKey_setCell, hasKey_setCell, hasKey_parseRow]
  by_cases e1 : c = "Last Update Date" <;> by_cases e2 : c = "Days Since Last Update" <;>
    by_cases e3 : c = "Inactive" <;>
    simp [e1, e2, e3, eq_comm]

theorem rowKeys_processRow (t : Int) (udCols : List String) (r : Row) :
    ∀ x ∈ rowKeys (processRow t udCols r),
      x ∈ rowKeys r ∨ x ∈ udCols ∨ x = "Last Update Date"
        ∨ x = "Days Since Last Update" ∨ x = "Inactive" := by
  unfold processRow
  intro x hx
  rcases rowKeys_setCell _ _ _ x hx with hx | hx
  · rcases rowKeys_setCell _ _ _ x hx with hx | hx
    · rcases rowKeys_setCell _ _ _ x hx with hx | hx
      · rcases rowKeys_parseRow _ _ x hx with hx | hx
        · exact Or.inl hx
        · exact Or.inr (Or.inl hx)
      · exact Or.inr (Or.inr (Or.inl hx))
    · exact Or.inr (Or.inr (Or.inr (Or.inl hx)))
  · exact Or.inr (Or.inr (Or.inr (Or.inr hx)))

theorem addCol_eq_of_mem {cs : List String} {c : String} (h : c ∈ cs) : addCol cs c = cs := by
  simp [addCol, h]

theorem addCol_eq_append_of_not_mem {cs : List String} {c : String} (h : c ∉ cs) :
    addCol cs c = cs ++ [c] := by
  simp [addCol, h]

theorem mem_addCol_self (cs : List String) (c : String) : c ∈ addCol cs c := by
  by_cases h : c ∈ cs
  · rw [addCol_eq_of_mem h]; exact h
  · rw [addCol_eq_append_of_not_mem h]; simp

theorem mem_addCol_of_mem {cs : List String} {x : String} (c : String) (h : x ∈ cs) :
    x ∈ addCol cs c := by
  by_cases hc : c ∈ cs
  · rwa [addCol_eq_of_mem hc]
  · rw [addCol_eq_append_of_not_mem hc]; exact List.mem_append.mpr (Or.inl h)

theorem mem_of_mem_addCol {cs : List String} {x c : String} (h : x ∈ addCol cs c) :
    x ∈ cs ∨ x = c := by
  by_cases hc : c ∈ cs
  · rw [addCol_eq_of_mem hc] at h; exact Or.inl h
  · rw [addCol_eq_append_of_not_mem hc] at h
    rcases List.mem_append.mp h with h | h
    · exact Or.inl h
    · right; simpa using h

theorem updateDateCols_append (a b : List String) :
    updateDateCols (a ++ b) = updateDateCols a ++ updateDateCols b := by
  simp [updateDateCols, List.filter_append]

theorem updateDateCols_addCol_false {c : String}
    (h : (hasSubstr c "Update" && hasSubstr c "Date") = false) (cs : List String) :
    updateDateCols (addCol cs c) = updateDateCols cs := by
  by_cases hc : c ∈ cs
  · rw [addCol_eq_of_mem hc]
  · rw [addCol_eq_append_of_not_mem hc, updateDateCols_append]
    simp [updateDateCols, List.filter, h]

theorem updateDateCols_addCol_true {c : String}
    (h : (hasSubstr c "Update" && hasSubstr c "Date") = true) (cs : List String) :
    updateDateCols (addCol cs c)
      = if c ∈ cs then updateDateCols cs else updateDateCols cs ++ [c] := by
  by_cases hc : c ∈ cs
  · rw [addCol_eq_of_mem hc, if_pos hc]
  · rw [addCol_eq_append_of_not_mem hc, updateDateCols_append, if_neg hc]
    simp [updateDateCols, List.filter, h]

theorem mem_updateDateCols_of_mem {c : String}
    (h : (hasSubstr c "Update" && hasSubstr c "Date") = true) {cs : List String}
    (hm : c ∈ cs) : c ∈ updateDateCols cs :=
  List.mem_filter.mpr ⟨hm, h⟩

/-- The column condition of line 86 holds for `"Last Update Date"` — once
the derived column has been written (or loaded back from the sheet), later
passes of `highlight_inactivity` include it among the update date
columns. -/
theorem lastUpdateDate_cond :
    (hasSubstr "Last Update Date" "Update" && hasSubstr "Last Update Date" "Date") = true := by
  decide

theorem days_cond :
    (hasSubstr "Days Since Last Update" "Update" && hasSubstr "Days Since Last Update" "Date") = false := by
  decide

theorem inactive_cond :
    (hasSubstr "Inactive" "Update" && hasSubstr "Inactive" "Date") = false := by
  decide

/-- Unfolding of `highlight_inactivity` when no update-date column exists
(the `else` branch, line 96). -/
theorem highlight_empty (t : Int) (df : DF) (h : updateDateCols df.cols = []) :
    highlight_inactivity t df
      = ⟨addCol df.cols "Inactive",
         df.rows.map (fun r => setCell r "Inactive" (.bool false))⟩ := by
  rw [highlight_inactivity]
  simp [h]

/-- Unfolding of `highlight_inactivity` when update-date columns exist
(lines 89–94). -/
theorem highlight_nonempty (t : Int) (df : DF) (h : updateDateCols df.cols ≠ []) :
    highlight_inactivity t df
      = ⟨addCol (addCol (addCol df.cols "Last Update Date") "Days Since Last Update") "Inactive",
         df.rows.map (processRow t (updateDateCols df.cols))⟩ := by
  rw [highlight_inactivity]
  simp [h]

/-- The update-date columns seen by a second pass of
`highlight_inactivity`: the same as the first pass, with
`"Last Update Date"` appended if it was not already a column. -/
theorem updateDateCols_after (df : DF) :
    updateDateCols (addCol (addCol (addCol df.cols "Last Update Date")
        "Days Since Last Update") "Inactive")
      = if "Last Update Date" ∈ df.cols then updateDateCols df.cols
        else updateDateCols df.cols ++ ["Last Update Date"] := by
  rw [updateDateCols_addCol_false inactive_cond, updateDateCols_addCol_false days_cond,
    updateDateCols_addCol_true lastUpdateDate_cond]

/-- A second pass of `processRow` over an already-processed row changes
nothing: the date columns are already `datetime` cells so the conversion
of line 90 is the identity, and re-reading `"Last Update Date"` (which the
second pass includes among the update-date columns) does not change the
row maximum because it already holds that maximum. -/
theorem processRow_idem (t : Int) (u1 : List String) (r : Row)
    (hD : "Days Since Last Update" ∉ u1) (hI : "Inactive" ∉ u1)
    (u2 : List String)
    (hu2 : (u2 = u1 ∧ "Last Update Date" ∈ u1)
      ∨ (u2 = u1 ++ ["Last Update Date"] ∧ "Last Update Date" ∉ u1)) :
    processRow t u2 (processRow t u1 r) = processRow t u1 r := by
  have hmem : ∀ c ∈ u2, c ∈ u1 ∨ c = "Last Update Date" := by
    intro c hc
    rcases hu2 with ⟨rfl, _⟩ | ⟨rfl, _⟩
    · exact Or.inl hc
    · rcases List.mem_append.mp hc with h | h
      · exact Or.inl h
      · right; simpa using h
  set r' := processRow t u1 r with hr'
  set m := rowLastUpdate u1 r with hmdef
  have hLval : getCell r' "Last Update Date" = .dt m := getCell_processRow_last t u1 r
  have hDval : getCell r' "Days Since Last Update" = .days (m.map (daysBetween t)) :=
    getCell_processRow_days t u1 r
  have hIval : getCell r' "Inactive" = .bool (inactiveOf (m.map (daysBetween t))) :=
    getCell_processRow_inactive t u1 r
  have hUDval : ∀ c ∈ u1, c ≠ "Last Update Date" →
      getCell r' c = .dt (toDatetime (getCell r c)) := by
    intro c hc hcL
    exact getCell_processRow_ud t u1 r c hc hcL
      (fun h => hD (h ▸ hc)) (fun h => hI (h ▸ hc))
  have hKey : ∀ c ∈ u2, hasKey r' c = true := by
    intro c hc
    rw [hr', hasKey_processRow]
    rcases hmem c hc with h | h <;> simp [h]
  have hDT : ∀ c ∈ u2, ∃ v, getCell r' c = .dt v := by
    intro c hc
    by_cases hcL : c = "Last Update Date"
    · exact ⟨m, hcL ▸ hLval⟩
    · rcases hmem c hc with h | h
      · exact ⟨toDatetime (getCell r c), hUDval c h hcL⟩
      · exact absurd h hcL
  have hparse : parseRow u2 r' = r' :=
    parseRow_id u2 r' (fun c hc => ⟨hKey c hc, hDT c hc⟩)
  have hm2 : listMax (u2.filterMap (fun c => dtVal (getCell r' c))) = m := by
    cases hm : m with
    | none =>
      have hempty : u1.filterMap (fun c => toDatetime (getCell r c)) = [] := by
        apply (listMax_eq_none_iff _).mp
        rw [← hm, hmdef]
        rfl
      have hnone := List.filterMap_eq_nil_iff.mp hempty
      apply (listMax_eq_none_iff _).mpr
      apply List.filterMap_eq_nil_iff.mpr
      intro c hc
      by_cases hcL : c = "Last Update Date"
      · subst hcL
        rw [hLval]
        simpa using hm
      · rcases hmem c hc with h | h
        · rw [hUDval c h hcL]
          exact hnone c h
        · exact absurd h hcL
    | some mv =>
      have hchar : mv ∈ u1.filterMap (fun c => toDatetime (getCell r c)) ∧
          ∀ x ∈ u1.filterMap (fun c => toDatetime (getCell r c)), x ≤ mv := by
        apply (listMax_eq_some_iff _ _).mp
        rw [← hm, hmdef]
        rfl
      obtain ⟨hmemv, hbound⟩ := hchar
      apply (listMax_eq_some_iff _ _).mpr
      constructor
      · have hL2 : "Last Update Date" ∈ u2 := by
          rcases hu2 with ⟨rfl, hLu⟩ | ⟨rfl, _⟩
          · exact hLu
          · exact List.mem_append.mpr (Or.inr (by simp))
        refine List.mem_filterMap.mpr ⟨"Last Update Date", hL2, ?_⟩
        rw [hLval, hm]
        rfl
      · intro x hx
        obtain ⟨c, hc, hfc⟩ := List.mem_filterMap.mp hx
        by_cases hcL : c = "Last Update Date"
        · subst hcL
          rw [hLval, hm] at hfc
          have hxv : mv = x := by simpa [dtVal] using hfc
          exact hxv ▸ le_refl mv
        · rcases hmem c hc with h | h
          · rw [hUDval c h hcL] at hfc
            exact hbound x (List.mem_filterMap.mpr ⟨c, h, hfc⟩)
          · exact absurd h hcL
  show setCell
      (setCell
        (setCell (parseRow u2 r') "Last Update Date"
          (.dt (listMax (u2.filterMap (fun c => dtVal (getCell (parseRow u2 r') c))))))
        "Days Since Last Update"
        (.days ((listMax (u2.filterMap (fun c => dtVal (getCell (parseRow u2 r') c)))).map
          (daysBetween t))))
      "Inactive"
      (.bool (inactiveOf ((listMax (u2.filterMap (fun c => dtVal (getCell (parseRow u2 r') c)))).map
        (daysBetween t))))
    = r'
  rw [hparse, hm2]
  have hkL : hasKey r' "Last Update Date" = true := by
    rw [hr', hasKey_processRow]; simp
  have hkD : hasKey r' "Days Since Last Update" = true := by
    rw [hr', hasKey_processRow]; simp
  have hkI : hasKey r' "Inactive" = true := by
    rw [hr', hasKey_processRow]; simp
  rw [setCell_id r' "Last Update Date" hkL hLval,
    setCell_id r' "Days Since Last Update" hkD hDval,
    setCell_id r' "Inactive" hkI hIval]

/-- Frame property of `highlight_inactivity` at column level: a column
whose name fails the line-86 filter and is none of the three derived
columns reads the same in every row before and after the call. -/
theorem highlight_col_frame (t : Int) (df : DF) (c : String)
    (h1 : (hasSubstr c "Update" && hasSubstr c "Date") = false)
    (h2 : c ≠ "Last Update Date") (h3 : c ≠ "Days Since Last Update")
    (h4 : c ≠ "Inactive") :
    (highlight_inactivity t df).rows.map (fun r => getCell r c)
      = df.rows.map (fun r => getCell r c) := by
  by_cases h : updateDateCols df.cols = []
  · rw [highlight_empty t df h]
    show (df.rows.map _).map _ = _
    rw [List.map_map]
    apply List.map_congr_left
    intro r hr
    exact getCell_setCell_ne r "Inactive" c (.bool false) (Ne.symm h4)
  · rw [highlight_nonempty t df h]
    show (df.rows.map _).map _ = _
    rw [List.map_map]
    apply List.map_congr_left
    intro r hr
    exact getCell_processRow_frame t _ r c (not_mem_updateDateCols h1 _) h2 h3 h4

theorem locSet_rows_getElem (df : DF) (c : String) (p : Row → Bool) (v : Cell)
    (i : Nat) (r : Row) (h : df.rows[i]? = some r) :
    (locSet df c p v).rows[i]? = some (if p r then setCell r c v else r) := by
  show (df.rows.map _)[i]? = _
  rw [List.getElem?_map, h]
  rfl

theorem setColConst_rows_getElem (df : DF) (c : String) (v : Cell)
    (i : Nat) (r : Row) (h : df.rows[i]? = some r) :
    (setColConst df c v).rows[i]? = some (setCell r c v) := by
  show (df.rows.map _)[i]? = _
  rw [List.getElem?_map, h]
  rfl

theorem mem_foldl_addCol_of_mem_init (ks : List String) (cs : List String) (x : String)
    (h : x ∈ cs) : x ∈ ks.foldl addCol cs := by
  induction ks generalizing cs with
  | nil => exact h
  | cons a t ih => exact ih (addCol cs a) (mem_addCol_of_mem a h)

theorem mem_foldl_addCol_of_mem (ks : List String) (cs : List String) (x : String)
    (h : x ∈ ks) : x ∈ ks.foldl addCol cs := by
  induction ks generalizing cs with
  | nil => cases h
  | cons a t ih =>
    rcases List.mem_cons.mp h with rfl | h
    · exact mem_foldl_addCol_of_mem_init t (addCol cs x) x (mem_addCol_self cs x)
    · exact ih (addCol cs a) h

theorem mem_of_mem_foldl_addCol (ks : List String) (cs : List String) (x : String)
    (h : x ∈ ks.foldl addCol cs) : x ∈ cs ∨ x ∈ ks := by
  induction ks generalizing cs with
  | nil => exact Or.inl h
  | cons a t ih =>
    rcases ih (addCol cs a) h with h2 | h2
    · rcases mem_of_mem_addCol h2 with h3 | h3
      · exact Or.inl h3
      · exact Or.inr (List.mem_cons.mpr (Or.inl h3))
    · exact Or.inr (List.mem_cons.mpr (Or.inr h2))

/-- Does any cell of the row hold the value `v`? -/
def rowHasVal (r : Row) (v : Cell) : Bool := r.any (fun p => p.2 == v)

/-- Is the pair list sorted by the `Days Since Last Update` component in
descending order?  Written from the specification's words
(`getAlerts … sorted by daysSinceLastUpdate descending`), to be compared
with the display order the code actually produces. -/
def sortedByDaysDescending : List (Cell × Cell) → Bool
  | a :: b :: t =>
    (match a.2, b.2 with
     | Cell.days (some x), Cell.days (some y) => decide (y ≤ x)
     | _, _ => false) && sortedByDaysDescending (b :: t)
  | _ => true

/-- The alert pair one row contributes, computed directly from the date
arithmetic: its name and floored day count when that count exceeds 14,
nothing otherwise. -/
def alertOfRow (t : Int) (u : List String) (r : Row) : Option (Cell × Cell) :=
  match (rowLastUpdate u r).map (daysBetween t) with
  | some k => if k > 14 then some (getCell r "Lead Name", Cell.days (some k)) else none
  | none => none

/-- The alert pairs computed directly from the date arithmetic, in table
(insertion) order: one pair per row whose floored day difference from its
maximum parseable update date exceeds 14. -/
def alertsTableOrder (t : Int) (df : DF) : List (Cell × Cell) :=
  df.rows.filterMap (alertOfRow t (updateDateCols df.cols))

/-! ## The claims -/

/-- **C4.**  `computeInactivity` is idempotent: for every table `T` and
reference instant `t` (the threshold is the fixed `14` of line 94),
`highlight_inactivity(highlight_inactivity(T)) = highlight_inactivity(T)`
— even though the second pass also picks up the freshly written
`"Last Update Date"` column in its line-86 filter, that column already
holds the row maximum, so nothing changes. -/
theorem C4_computeInactivity_idempotent (t : Int) (df : DF) :
    highlight_inactivity t (highlight_inactivity t df) = highlight_inactivity t df := by
  by_cases h : updateDateCols df.cols = []
  · rw [highlight_empty t df h]
    have h2 : updateDateCols (addCol df.cols "Inactive") = [] := by
      rw [updateDateCols_addCol_false inactive_cond]
      exact h
    rw [highlight_empty t _ h2]
    refine congrArg₂ DF.mk ?_ ?_
    · exact addCol_eq_of_mem (mem_addCol_self _ _)
    · show (df.rows.map _).map _ = _
      rw [List.map_map]
      apply List.map_congr_left
      intro r hr
      exact setCell_setCell r "Inactive" (.bool false) (.bool false)
  · rw [highlight_nonempty t df h]
    have hafter := updateDateCols_after df
    have h2 : updateDateCols (addCol (addCol (addCol df.cols "Last Update Date")
        "Days Since Last Update") "Inactive") ≠ [] := by
      rw [hafter]
      split_ifs
      · exact h
      · simp
    rw [highlight_nonempty t _ h2]
    refine congrArg₂ DF.mk ?_ ?_
    · have hLm : "Last Update Date" ∈ addCol (addCol (addCol df.cols "Last Update Date")
          "Days Since Last Update") "Inactive" :=
        mem_addCol_of_mem _ (mem_addCol_of_mem _ (mem_addCol_self _ _))
      have hDm : "Days Since Last Update" ∈ addCol (addCol (addCol df.cols "Last Update Date")
          "Days Since Last Update") "Inactive" :=
        mem_addCol_of_mem _ (mem_addCol_self _ _)
      have hIm : "Inactive" ∈ addCol (addCol (addCol df.cols "Last Update Date")
          "Days Since Last Update") "Inactive" :=
        mem_addCol_self _ _
      show addCol (addCol (addCol (addCol (addCol (addCol df.cols "Last Update Date")
        "Days Since Last Update") "Inactive") "Last Update Date") "Days Since Last Update")
        "Inactive" = _
      rw [addCol_eq_of_mem hLm, addCol_eq_of_mem hDm, addCol_eq_of_mem hIm]
    · show (df.rows.map _).map _ = _
      rw [List.map_map]
      apply List.map_congr_left
      intro r hr
      show processRow t (updateDateCols (addCol (addCol (addCol df.cols "Last Update Date")
          "Days Since Last Update") "Inactive")) (processRow t (updateDateCols df.cols) r)
        = processRow t (updateDateCols df.cols) r
      rw [hafter]
      by_cases hL : "Last Update Date" ∈ df.cols
      · rw [if_pos hL]
        exact processRow_idem t _ r (days_not_ud _) (inactive_not_ud _) _
          (Or.inl ⟨rfl, mem_updateDateCols_of_mem lastUpdateDate_cond hL⟩)
      · rw [if_neg hL]
        exact processRow_idem t _ r (days_not_ud _) (inactive_not_ud _) _
          (Or.inr ⟨rfl, fun hmem => hL (List.mem_of_mem_filter hmem)⟩)

/-- **C1.**  For every table with at least one update-date column,
`highlight_inactivity` writes into each row: `"Last Update Date"` = the
maximum parseable date among the row's update-date cells (unparseable and
missing cells ignored); `"Days Since Last Update"` = the floored whole-day
difference between the reference instant and that maximum; `"Inactive"` =
true exactly when that difference exceeds 14 days.  A row with no
parseable update date gets `Inactive = false` and does not pass the alert
filter of line 211. -/
theorem C1_computeInactivity_row_values (t : Int) (df : DF)
    (h : updateDateCols df.cols ≠ []) (i : Nat) (r : Row)
    (hr : df.rows[i]? = some r) :
    ∃ r', (highlight_inactivity t df).rows[i]? = some r' ∧
      getCell r' "Last Update Date" = .dt (rowLastUpdate (updateDateCols df.cols) r) ∧
      getCell r' "Days Since Last Update"
        = .days ((rowLastUpdate (updateDateCols df.cols) r).map (daysBetween t)) ∧
      (∀ d, rowLastUpdate (updateDateCols df.cols) r = some d →
        (getCell r' "Inactive" = .bool true ↔ daysBetween t d > 14)) ∧
      (rowLastUpdate (updateDateCols df.cols) r = none →
        getCell r' "Inactive" = .bool false ∧
        r' ∉ (highlight_inactivity t df).rows.filter
          (fun r2 => getCell r2 "Inactive" == .bool true)) := by
  rw [highlight_nonempty t df h]
  refine ⟨processRow t (updateDateCols df.cols) r, ?_, ?_, ?_, ?_, ?_⟩
  · show (df.rows.map _)[i]? = _
    rw [List.getElem?_map, hr]
    rfl
  · exact getCell_processRow_last t _ r
  · exact getCell_processRow_days t _ r
  · intro d hd
    rw [getCell_processRow_inactive, hd]
    constructor
    · intro hb
      have : inactiveOf (some (daysBetween t d)) = true := by
        injection hb
      simpa [inactiveOf] using this
    · intro hgt
      show Cell.bool (inactiveOf (some (daysBetween t d))) = Cell.bool true
      congr 1
      simpa [inactiveOf] using hgt
  · intro hnone
    constructor
    · rw [getCell_processRow_inactive, hnone]
      rfl
    · intro hmem
      have hp := (List.mem_filter.mp hmem).2
      rw [getCell_processRow_inactive, hnone] at hp
      simp [inactiveOf] at hp

/-- Example table for C1: two leads, one updated 2025-01-01, one whose
update date cell is blank. -/
def c1df : DF :=
  ⟨["Lead Name", "Update Count", "Update 1 Date"],
   [[("Lead Name", .str "A"), ("Update Count", .nat 1), ("Update 1 Date", .str "2025-01-01")],
    [("Lead Name", .str "B"), ("Update Count", .nat 1), ("Update 1 Date", .str "")]]⟩

/-- Reference instant for the C1 example: 2025-01-20, so 19 whole days
after lead A's only update. -/
def c1t : Int := 86400 * (daysFromCivil 2025 1 20 : Int)

def c1rowA : Row :=
  [("Lead Name", .str "A"), ("Update Count", .nat 1), ("Update 1 Date", .str "2025-01-01")]

theorem C1_computeInactivity_row_values_witness :
    updateDateCols c1df.cols ≠ [] ∧ c1df.rows[0]? = some c1rowA ∧
    (∃ r', (highlight_inactivity c1t c1df).rows[0]? = some r' ∧
      getCell r' "Last Update Date" = .dt (rowLastUpdate (updateDateCols c1df.cols) c1rowA) ∧
      getCell r' "Days Since Last Update"
        = .days ((rowLastUpdate (updateDateCols c1df.cols) c1rowA).map (daysBetween c1t)) ∧
      (∀ d, rowLastUpdate (updateDateCols c1df.cols) c1rowA = some d →
        (getCell r' "Inactive" = .bool true ↔ daysBetween c1t d > 14)) ∧
      (rowLastUpdate (updateDateCols c1df.cols) c1rowA = none →
        getCell r' "Inactive" = .bool false ∧
        r' ∉ (highlight_inactivity c1t c1df).rows.filter
          (fun r2 => getCell r2 "Inactive" == .bool true))) :=
  ⟨by decide, by decide,
   C1_computeInactivity_row_values c1t c1df (by decide) 0 c1rowA (by decide)⟩

/-- **C8.**  Monotonicity in time: for a fixed table, if a row is flagged
inactive at reference instant `t`, it is still flagged inactive at any
later instant `t'` — the floored day difference only grows. -/
theorem C8_inactive_monotone_in_time (t t' : Int) (df : DF) (h : t ≤ t')
    (i : Nat) (r1 r2 : Row)
    (h1 : (highlight_inactivity t df).rows[i]? = some r1)
    (h2 : (highlight_inactivity t' df).rows[i]? = some r2)
    (hin : getCell r1 "Inactive" = .bool true) :
    getCell r2 "Inactive" = .bool true := by
  by_cases hud : updateDateCols df.cols = []
  · rw [highlight_empty t df hud] at h1
    rw [show (⟨addCol df.cols "Inactive",
        df.rows.map (fun r => setCell r "Inactive" (.bool false))⟩ : DF).rows
      = df.rows.map (fun r => setCell r "Inactive" (.bool false)) from rfl,
      List.getElem?_map] at h1
    cases hrow : df.rows[i]? with
    | none => rw [hrow] at h1; cases h1
    | some r0 =>
      rw [hrow] at h1
      have : setCell r0 "Inactive" (.bool false) = r1 := by injection h1
      rw [← this, getCell_setCell_same] at hin
      cases hin
  · rw [highlight_nonempty t df hud] at h1
    rw [highlight_nonempty t' df hud] at h2
    rw [show (⟨addCol (addCol (addCol df.cols "Last Update Date") "Days Since Last Update")
        "Inactive", df.rows.map (processRow t (updateDateCols df.cols))⟩ : DF).rows
      = df.rows.map (processRow t (updateDateCols df.cols)) from rfl,
      List.getElem?_map] at h1
    rw [show (⟨addCol (addCol (addCol df.cols "Last Update Date") "Days Since Last Update")
        "Inactive", df.rows.map (processRow t' (updateDateCols df.cols))⟩ : DF).rows
      = df.rows.map (processRow t' (updateDateCols df.cols)) from rfl,
      List.getElem?_map] at h2
    cases hrow : df.rows[i]? with
    | none => rw [hrow] at h1; cases h1
    | some r0 =>
      rw [hrow] at h1
      rw [hrow] at h2
      have e1 : processRow t (updateDateCols df.cols) r0 = r1 := by injection h1
      have e2 : processRow t' (updateDateCols df.cols) r0 = r2 := by injection h2
      rw [← e1, getCell_processRow_inactive] at hin
      rw [← e2, getCell_processRow_inactive]
      cases hm : rowLastUpdate (updateDateCols df.cols) r0 with
      | none =>
        rw [hm] at hin
        simp [inactiveOf] at hin
      | some d =>
        rw [hm] at hin
        have hgt : daysBetween t d > 14 := by
          have : inactiveOf (some (daysBetween t d)) = true := by injection hin
          simpa [inactiveOf] using this
        have hgt' : daysBetween t' d > 14 :=
          lt_of_lt_of_le hgt (daysBetween_mono d h)
        show Cell.bool (inactiveOf (some (daysBetween t' d))) = Cell.bool true
        congr 1
        simpa [inactiveOf] using hgt'

def c8df : DF :=
  ⟨["Lead Name", "Update Count", "Update 1 Date"],
   [[("Lead Name", .str "A"), ("Update Count", .nat 1), ("Update 1 Date", .str "2025-01-01")]]⟩

def c8t : Int := 86400 * (daysFromCivil 2025 1 20 : Int)

def c8t' : Int := 86400 * (daysFromCivil 2025 2 10 : Int)

def c8rowA : Row :=
  [("Lead Name", .str "A"), ("Update Count", .nat 1), ("Update 1 Date", .str "2025-01-01")]

def c8row1 : Row := processRow c8t (updateDateCols c8df.cols) c8rowA

def c8row2 : Row := processRow c8t' (updateDateCols c8df.cols) c8rowA

theorem C8_inactive_monotone_in_time_witness :
    c8t ≤ c8t' ∧ getCell c8row2 "Inactive" = .bool true :=
  ⟨by decide,
   C8_inactive_monotone_in_time c8t c8t' c8df (by decide) 0 c8row1 c8row2
     (by decide) (by decide) (by decide)⟩

/-- Example table for C7: one lead with a string-valued update date. -/
def c7df : DF :=
  ⟨["Lead Name", "Update 1 Date"],
   [[("Lead Name", .str "A"), ("Update 1 Date", .str "2025-01-01")]]⟩

/-- **C7 (counterexample).**  `highlight_inactivity` is not pure in the
frame sense: the source assigns `data[col] = pd.to_datetime(data[col], ...)`
on its argument, so after the call the caller's table holds a parsed
datetime where it held the string `"2025-01-01"`. -/
theorem C7_not_pure_counterexample :
    c7df.rows.map (fun r => getCell r "Update 1 Date") = [Cell.str "2025-01-01"] ∧
    (argAfterHighlight 0 c7df).rows.map (fun r => getCell r "Update 1 Date")
      = [Cell.dt (some (daysFromCivil 2025 1 1))] ∧
    (argAfterHighlight 0 c7df).rows.map (fun r => getCell r "Update 1 Date")
      ≠ c7df.rows.map (fun r => getCell r "Update 1 Date") := by
  refine ⟨by decide, by decide, by decide⟩

/-- **C7 (amended).**  `highlight_inactivity` mutates its argument (which
aliases its result): it parses the update-date columns in place and writes
the three derived columns.  Every other column of the caller's table is
untouched: a column whose name fails the line-86 filter and is not one of
`Last Update Date` / `Days Since Last Update` / `Inactive` reads the same
in every row after the call. -/
theorem C7_computeInactivity_mutates_only_derived (t : Int) (df : DF) (c : String)
    (h1 : (hasSubstr c "Update" && hasSubstr c "Date") = false)
    (h2 : c ≠ "Last Update Date") (h3 : c ≠ "Days Since Last Update")
    (h4 : c ≠ "Inactive") :
    (argAfterHighlight t df).rows.map (fun r => getCell r c)
      = df.rows.map (fun r => getCell r c) :=
  highlight_col_frame t df c h1 h2 h3 h4

theorem C7_computeInactivity_mutates_only_derived_witness :
    (argAfterHighlight 0 c7df).rows.map (fun r => getCell r "Lead Name")
      = c7df.rows.map (fun r => getCell r "Lead Name") :=
  C7_computeInactivity_mutates_only_derived 0 c7df "Lead Name"
    (by decide) (by decide) (by decide) (by decide)

/-- The alert pipeline of lines 209–214 over processed rows, one row at a
time. -/
theorem alerts_aux (t : Int) (u : List String) (rows : List Row)
    (hLN : "Lead Name" ∉ u) :
    ((rows.map (processRow t u)).filter
        (fun r => getCell r "Inactive" == Cell.bool true)).map
      (fun r => (getCell r "Lead Name", getCell r "Days Since Last Update"))
      = rows.filterMap (alertOfRow t u) := by
  induction rows with
  | nil => rfl
  | cons r rest ih =>
    rw [List.map_cons, List.filter_cons, List.filterMap_cons]
    cases hm : rowLastUpdate u r with
    | none =>
      have hfalse : (getCell (processRow t u r) "Inactive" == Cell.bool true) = false := by
        rw [getCell_processRow_inactive, hm]
        rfl
      have hA : alertOfRow t u r = none := by
        unfold alertOfRow
        rw [hm]
        rfl
      rw [hfalse, hA]
      simpa using ih
    | some d =>
      by_cases hk : daysBetween t d > 14
      · have htrue : (getCell (processRow t u r) "Inactive" == Cell.bool true) = true := by
          rw [getCell_processRow_inactive, hm]
          simp [inactiveOf, hk]
        have hA : alertOfRow t u r
            = some (getCell r "Lead Name", Cell.days (some (daysBetween t d))) := by
          unfold alertOfRow
          rw [hm]
          show (if daysBetween t d > 14 then _ else _) = _
          rw [if_pos hk]
        have hname : getCell (processRow t u r) "Lead Name" = getCell r "Lead Name" :=
          getCell_processRow_frame t u r "Lead Name" hLN (by decide) (by decide) (by decide)
        have hdays : getCell (processRow t u r) "Days Since Last Update"
            = Cell.days (some (daysBetween t d)) := by
          rw [getCell_processRow_days, hm]
          rfl
        rw [htrue, hA, if_pos rfl, List.map_cons]
        show (getCell (processRow t u r) "Lead Name",
            getCell (processRow t u r) "Days Since Last Update") :: _
          = (getCell r "Lead Name", Cell.days (some (daysBetween t d))) :: _
        exact congrArg₂ List.cons (by rw [hname, hdays]) ih
      · have hfalse : (getCell (processRow t u r) "Inactive" == Cell.bool true) = false := by
          rw [getCell_processRow_inactive, hm]
          simp [inactiveOf, hk]
        have hA : alertOfRow t u r = none := by
          unfold alertOfRow
          rw [hm]
          show (if daysBetween t d > 14 then _ else _) = _
          rw [if_neg hk]
        rw [hfalse, hA]
        simpa using ih

/-- **C9 (amended).**  The inactive-alert display (lines 209–214) shows,
for the flagged leads, the `Lead Name` / `Days Since Last Update` pairs in
table (insertion) order — exactly the rows whose floored day difference
exceeds 14 — with no sorting. -/
theorem C9_getAlerts_table_order (t : Int) (df : DF) :
    getAlerts t df = alertsTableOrder t df := by
  unfold getAlerts alertsTableOrder
  by_cases h : updateDateCols df.cols = []
  · rw [highlight_empty t df h]
    have hf : (df.rows.map (fun r => setCell r "Inactive" (.bool false))).filter
        (fun r => getCell r "Inactive" == Cell.bool true) = [] := by
      apply List.filter_eq_nil_iff.mpr
      intro r hr
      obtain ⟨r0, _, rfl⟩ := List.mem_map.mp hr
      rw [getCell_setCell_same]
      simp
    show ((df.rows.map _).filter _).map _ = _
    rw [hf, h]
    symm
    apply List.filterMap_eq_nil_iff.mpr
    intro r hr
    rfl

  · rw [highlight_nonempty t df h]
    exact alerts_aux t _ df.rows (not_mem_updateDateCols (by decide) _)

/-- Example table for C9: lead `A` (15 days quiet) appears before lead `B`
(20 days quiet), so the displayed alert sequence is ascending, not the
descending order the specification promises. -/
def c9df : DF :=
  ⟨["Lead Name", "Update Count", "Update 1 Date"],
   [[("Lead Name", .str "A"), ("Update Count", .nat 1), ("Update 1 Date", .str "2025-01-06")],
    [("Lead Name", .str "B"), ("Update Count", .nat 1), ("Update 1 Date", .str "2025-01-01")]]⟩

def c9t : Int := 86400 * (daysFromCivil 2025 1 21 : Int)

/-- **C9 (counterexample).**  The display code never sorts: with lead `A`
15 days quiet listed before lead `B` 20 days quiet, the alert sequence is
`[("A", 15), ("B", 20)]`, which is not sorted by days descending. -/
theorem C9_alerts_not_sorted_counterexample :
    getAlerts c9t c9df
      = [(Cell.str "A", Cell.days (some 15)), (Cell.str "B", Cell.days (some 20))] ∧
    sortedByDaysDescending (getAlerts c9t c9df) = false := by
  refine ⟨by decide, by decide⟩

/-- Example table for C5: one lead with one recorded update. -/
def c5df : DF :=
  ⟨["Lead Name", "District", "Branch", "Update Count", "Update 1 Text", "Update 1 Date"],
   [[("Lead Name", .str "A"), ("District", .str "X"), ("Branch", .str "Y"),
     ("Update Count", .nat 1), ("Update 1 Text", .str "x"),
     ("Update 1 Date", .str "2025-01-01")]]⟩

/-- **C5 (counterexample).**  Submitting an empty note does leave the
table unchanged, but produces no `ValidationError` (or any other error):
the guard `if submit_button and update_text:` at line 130 silently does
nothing. -/
theorem C5_empty_note_no_error_counterexample :
    update_form_submit "A" "" "2025-01-02" c5df = .noAction c5df ∧
    (update_form_submit "A" "" "2025-01-02" c5df).isValidationError = false := by
  refine ⟨by decide, by decide⟩

/-- **C5 (amended).**  A submission with an empty note is silently
ignored: both handlers leave the table unchanged, run no save, and raise
no error of any kind — there is no `ValidationError` in the code. -/
theorem C5_empty_note_silent_noop :
    (∀ (name dateStr : String) (df : DF),
      update_form_submit name "" dateStr df = .noAction df ∧
      (update_form_submit name "" dateStr df).isValidationError = false) ∧
    (∀ (t : Int) (name district branch phone dateStr : String) (df : DF),
      entry_form_submit t name district branch phone "" dateStr df = .noAction df ∧
      (entry_form_submit t name district branch phone "" dateStr df).isValidationError
        = false) := by
  constructor
  · intro name dateStr df
    rw [update_form_submit]
    exact ⟨if_pos rfl, by rw [if_pos rfl]; rfl⟩
  · intro t name district branch phone dateStr df
    rw [entry_form_submit]
    exact ⟨if_pos (Or.inr (Or.inr rfl)), by rw [if_pos (Or.inr (Or.inr rfl))]; rfl⟩

/-- The fresh row built at lines 160–167 (note: no phone field). -/
def newLeadRow (name district branch note dateStr : String) : Row :=
  [("Lead Name", .str name), ("District", .str district), ("Branch", .str branch),
   ("Update Count", .nat 1), (updTextCol 1, .str note), (updDateCol 1, .str dateStr)]

theorem entry_form_submit_saved (t : Int) (name district branch phone note dateStr : String)
    (df : DF) (hname : name ≠ "") (hphone : phone ≠ "") (hnote : note ≠ "") :
    entry_form_submit t name district branch phone note dateStr df
      = .saved (highlight_inactivity t
          (concatRow df (newLeadRow name district branch note dateStr))) := by
  rw [entry_form_submit, if_neg]
  · rfl
  · rintro (h | h | h)
    · exact hname h
    · exact hphone h
    · exact hnote h

theorem updDateCol_one_mem_entry_cols (name district branch note dateStr : String)
    (df : DF) :
    updDateCol 1 ∈ updateDateCols
      (concatRow df (newLeadRow name district branch note dateStr)).cols := by
  apply mem_updateDateCols_of_mem
  · rw [(hasSubstr_updDateCol 1).1, (hasSubstr_updDateCol 1).2]
    rfl
  · apply mem_foldl_addCol_of_mem
    show updDateCol 1 ∈ rowKeys (newLeadRow name district branch note dateStr)
    simp [rowKeys, newLeadRow]

theorem entry_cols_ud_ne_nil (name district branch note dateStr : String) (df : DF) :
    updateDateCols (concatRow df (newLeadRow name district branch note dateStr)).cols ≠ [] := by
  intro h0
  have := updDateCol_one_mem_entry_cols name district branch note dateStr df
  rw [h0] at this
  cases this

/-- **C6.**  The identity decision of a mutating append (line 123) is an
exact, case-sensitive string match.  When no existing `Lead Name` equals
the submitted name exactly, the dispatch takes the new-lead branch and
appends a second, distinct row carrying the submitted name; every existing
row keeps its own (different) name.  The case-insensitive match of
line 118 only populates the suggestion select box (`matchingNames`), not
this decision. -/
theorem C6_identity_exact_match (t : Int) (name district branch phone note dateStr : String)
    (df : DF) (hname : name ≠ "") (hex : leadExists df name = false)
    (hphone : phone ≠ "") (hnote : note ≠ "") :
    ∃ df', submitLead t name district branch phone note dateStr df = .saved df' ∧
      df'.rows.length = df.rows.length + 1 ∧
      (∃ rN, df'.rows[df.rows.length]? = some rN ∧ getCell rN "Lead Name" = .str name) ∧
      (∀ (i : Nat) (r : Row), df.rows[i]? = some r → ∃ r', df'.rows[i]? = some r' ∧
        getCell r' "Lead Name" = getCell r "Lead Name" ∧
        getCell r' "Lead Name" ≠ .str name) := by
  have hdisp : submitLead t name district branch phone note dateStr df
      = entry_form_submit t name district branch phone note dateStr df := by
    rw [submitLead, if_neg]
    rintro ⟨h1, h2⟩
    rw [hex] at h2
    cases h2
  rw [hdisp, entry_form_submit_saved t name district branch phone note dateStr df
    hname hphone hnote]
  set newRow := newLeadRow name district branch note dateStr with hnewRow
  set dfc := concatRow df newRow with hdfc
  have hne := entry_cols_ud_ne_nil name district branch note dateStr df
  rw [highlight_nonempty t dfc hne]
  set u := updateDateCols dfc.cols with hu
  have hLNu : "Lead Name" ∉ u := not_mem_updateDateCols (by decide) _
  have hrows : dfc.rows = df.rows ++ [newRow] := rfl
  refine ⟨_, rfl, ?_, ?_, ?_⟩
  · show (dfc.rows.map (processRow t u)).length = df.rows.length + 1
    rw [List.length_map, hrows, List.length_append]
    rfl
  · refine ⟨processRow t u newRow, ?_, ?_⟩
    · show (dfc.rows.map (processRow t u))[df.rows.length]? = _
      rw [List.getElem?_map, hrows, List.getElem?_concat_length]
      rfl
    · rw [getCell_processRow_frame t u newRow "Lead Name" hLNu
        (by decide) (by decide) (by decide)]
      show getCell (("Lead Name", Cell.str name) :: _) "Lead Name" = Cell.str name
      simp [getCell]
  · intro i r hr
    have hlt : i < df.rows.length := by
      by_contra hge
      rw [List.getElem?_eq_none (by omega)] at hr
      cases hr
    refine ⟨processRow t u r, ?_, ?_, ?_⟩
    · show (dfc.rows.map (processRow t u))[i]? = _
      rw [List.getElem?_map, hrows, List.getElem?_append, if_pos hlt, hr]
      rfl
    · exact getCell_processRow_frame t u r "Lead Name" hLNu (by decide) (by decide) (by decide)
    · rw [getCell_processRow_frame t u r "Lead Name" hLNu (by decide) (by decide) (by decide)]
      have hmem : r ∈ df.rows := List.getElem?_mem hr
      have hall := List.any_eq_false.mp hex r hmem
      intro heq
      rw [nameMask, heq] at hall
      simp at hall

/-- Example table for C6: the lead `"Asha Rao"` exists. -/
def c6df : DF :=
  ⟨["Lead Name", "District", "Branch", "Update Count", "Update 1 Text", "Update 1 Date"],
   [[("Lead Name", .str "Asha Rao"), ("District", .str "X"), ("Branch", .str "Y"),
     ("Update Count", .nat 1), ("Update 1 Text", .str "x"),
     ("Update 1 Date", .str "2025-01-01")]]⟩

theorem C6_identity_exact_match_witness :
    leadExists c6df "Asha Rao" = true ∧ leadExists c6df "asha rao" = false ∧
    matchingNames c6df "asha rao" = ["Asha Rao"] ∧
    (∃ df', submitLead 0 "asha rao" "X" "Y" "1" "first" "2025-01-02" c6df = .saved df' ∧
      df'.rows.length = c6df.rows.length + 1 ∧
      (∃ rN, df'.rows[c6df.rows.length]? = some rN ∧
        getCell rN "Lead Name" = .str "asha rao") ∧
      (∀ (i : Nat) (r : Row), c6df.rows[i]? = some r → ∃ r', df'.rows[i]? = some r' ∧
        getCell r' "Lead Name" = getCell r "Lead Name" ∧
        getCell r' "Lead Name" ≠ .str "asha rao")) :=
  ⟨by decide, by decide, by decide,
   C6_identity_exact_match 0 "asha rao" "X" "Y" "1" "first" "2025-01-02" c6df
     (by decide) (by decide) (by decide) (by decide)⟩

theorem nameMask_setCell (name : String) (r : Row) (c : String) (v : Cell)
    (hc : c ≠ "Lead Name") : nameMask name (setCell r c v) = nameMask name r := by
  unfold nameMask
  rw [getCell_setCell_ne _ _ _ _ hc]

theorem mask_ne_true {p : Bool} (h : p = false) : ¬(p = true) := by
  rw [h]
  exact Bool.false_ne_true

/-- **C2 (counterexample).**  On the new-lead path the phone number —
required non-empty by the guard at line 156 — is not among the fields of
`new_data` (lines 160–167): after submitting a brand-new lead with phone
`"0123456789"`, no cell of the saved table holds that value, while the
supplied note is stored. -/
theorem C2_new_row_lacks_phone_counterexample :
    entry_form_submit 0 "A" "D" "B" "0123456789" "first" "2025-01-01" emptyDF
      = .saved (highlight_inactivity 0
          (concatRow emptyDF (newLeadRow "A" "D" "B" "first" "2025-01-01"))) ∧
    ((highlight_inactivity 0
        (concatRow emptyDF (newLeadRow "A" "D" "B" "first" "2025-01-01"))).rows.any
      (fun r => rowHasVal r (.str "0123456789"))) = false ∧
    ((highlight_inactivity 0
        (concatRow emptyDF (newLeadRow "A" "D" "B" "first" "2025-01-01"))).rows.any
      (fun r => rowHasVal r (.str "first"))) = true := by
  refine ⟨by decide, by decide, by decide⟩

/-- **C2 (amended).**  Appending to an existing lead reads its current
update count `c`, writes the note to `Update {c+1} Text`, the formatted
date to `Update {c+1} Date` and sets `Update Count` to `c+1`; a brand-new
lead is appended as a last row holding the selected district, the derived
branch, update count 1 and `Update 1 Text` / `Update 1 Date` (the date
parsed by the inactivity recomputation of line 170) — but not the
supplied phone number. -/
theorem C2_appendUpdate_amended :
    (∀ (name note dateStr : String) (df : DF) (r0 : Row) (c0 : Nat),
      note ≠ "" →
      df.rows.find? (nameMask name) = some r0 →
      toCount (getCell r0 "Update Count") = some c0 →
      ∃ df', update_form_submit name note dateStr df = .saved df' ∧
        ∀ (i : Nat) (r : Row), df.rows[i]? = some r → nameMask name r = true →
          ∃ r', df'.rows[i]? = some r' ∧
            getCell r' (updTextCol (c0 + 1)) = .str note ∧
            getCell r' (updDateCol (c0 + 1)) = .str dateStr ∧
            getCell r' "Update Count" = .nat (c0 + 1)) ∧
    (∀ (t : Int) (name district branch phone note dateStr : String) (df : DF),
      name ≠ "" → phone ≠ "" → note ≠ "" →
      ∃ df', entry_form_submit t name district branch phone note dateStr df = .saved df' ∧
        ∃ rN, df'.rows[df.rows.length]? = some rN ∧
          getCell rN "Lead Name" = .str name ∧
          getCell rN "District" = .str district ∧
          getCell rN "Branch" = .str branch ∧
          getCell rN "Update Count" = .nat 1 ∧
          getCell rN (updTextCol 1) = .str note ∧
          getCell rN (updDateCol 1) = .dt (parseDate dateStr)) := by
  constructor
  · intro name note dateStr df r0 c0 hnote hfind hcount
    have hstep : update_form_submit name note dateStr df
        = .saved (locSet (locSet (locSet
            (if updTextCol (c0 + 1) ∈ df.cols then df
             else setColConst (setColConst df (updTextCol (c0 + 1)) (.str ""))
               (updDateCol (c0 + 1)) (.str ""))
            (updTextCol (c0 + 1)) (nameMask name) (.str note))
            (updDateCol (c0 + 1)) (nameMask name) (.str dateStr))
            "Update Count" (nameMask name) (.nat (c0 + 1))) := by
      rw [update_form_submit]
      simp only [if_neg hnote, hfind, hcount]
    refine ⟨_, hstep, ?_⟩
    intro i r hr hmask
    have hLNt : updTextCol (c0 + 1) ≠ "Lead Name" := (updTextCol_ne_fixed (c0 + 1)).2.1
    have hLNd : updDateCol (c0 + 1) ≠ "Lead Name" := (updDateCol_ne_fixed (c0 + 1)).2.1
    have hUCt : updTextCol (c0 + 1) ≠ "Update Count" := (updTextCol_ne_fixed (c0 + 1)).1
    have hUCd : updDateCol (c0 + 1) ≠ "Update Count" := (updDateCol_ne_fixed (c0 + 1)).1
    have htd : updTextCol (c0 + 1) ≠ updDateCol (c0 + 1) :=
      updTextCol_ne_updDateCol (c0 + 1) (c0 + 1)
    -- through the optional column creation of lines 136–138
    have h1 : ∃ r1, (if updTextCol (c0 + 1) ∈ df.cols then df
          else setColConst (setColConst df (updTextCol (c0 + 1)) (.str ""))
            (updDateCol (c0 + 1)) (.str "")).rows[i]? = some r1 ∧
        nameMask name r1 = true := by
      by_cases hmem : updTextCol (c0 + 1) ∈ df.cols
      · rw [if_pos hmem]
        exact ⟨r, hr, hmask⟩
      · rw [if_neg hmem]
        refine ⟨setCell (setCell r (updTextCol (c0 + 1)) (.str ""))
          (updDateCol (c0 + 1)) (.str ""), ?_, ?_⟩
        · exact setColConst_rows_getElem _ _ _ i _
            (setColConst_rows_getElem _ _ _ i r hr)
        · rw [nameMask_setCell _ _ _ _ hLNd, nameMask_setCell _ _ _ _ hLNt]
          exact hmask
    obtain ⟨r1, hr1, hm1⟩ := h1
    have hr2 := locSet_rows_getElem _ (updTextCol (c0 + 1)) (nameMask name)
      (.str note) i r1 hr1
    rw [if_pos hm1] at hr2
    have hm2 : nameMask name (setCell r1 (updTextCol (c0 + 1)) (.str note)) = true := by
      rw [nameMask_setCell _ _ _ _ hLNt]
      exact hm1
    have hr3 := locSet_rows_getElem _ (updDateCol (c0 + 1)) (nameMask name)
      (.str dateStr) i _ hr2
    rw [if_pos hm2] at hr3
    have hm3 : nameMask name (setCell (setCell r1 (updTextCol (c0 + 1)) (.str note))
        (updDateCol (c0 + 1)) (.str dateStr)) = true := by
      rw [nameMask_setCell _ _ _ _ hLNd]
      exact hm2
    have hr4 := locSet_rows_getElem _ "Update Count" (nameMask name)
      (.nat (c0 + 1)) i _ hr3
    rw [if_pos hm3] at hr4
    refine ⟨_, hr4, ?_, ?_, ?_⟩
    · rw [getCell_setCell_ne _ _ _ _ (Ne.symm hUCt),
        getCell_setCell_ne _ _ _ _ (Ne.symm htd), getCell_setCell_same]
    · rw [getCell_setCell_ne _ _ _ _ (Ne.symm hUCd), getCell_setCell_same]
    · rw [getCell_setCell_same]
  · intro t name district branch phone note dateStr df hname hphone hnote
    rw [entry_form_submit_saved t name district branch phone note dateStr df
      hname hphone hnote]
    have hne := entry_cols_ud_ne_nil name district branch note dateStr df
    rw [highlight_nonempty t _ hne]
    set newRow := newLeadRow name district branch note dateStr with hnewRow
    set u := updateDateCols (concatRow df newRow).cols with hu
    refine ⟨_, rfl, processRow t u newRow, ?_, ?_, ?_, ?_, ?_, ?_, ?_⟩
    · show ((concatRow df newRow).rows.map (processRow t u))[df.rows.length]? = _
      rw [List.getElem?_map,
        show (concatRow df newRow).rows = df.rows ++ [newRow] from rfl,
        List.getElem?_concat_length]
      rfl
    · rw [getCell_processRow_frame t u newRow "Lead Name"
        (not_mem_updateDateCols (by decide) _) (by decide) (by decide) (by decide)]
      show getCell (("Lead Name", Cell.str name) :: _) "Lead Name" = Cell.str name
      simp [getCell]
    · rw [getCell_processRow_frame t u newRow "District"
        (not_mem_updateDateCols (by decide) _) (by decide) (by decide) (by decide)]
      show getCell (("Lead Name", Cell.str name) :: ("District", Cell.str district) :: _)
        "District" = Cell.str district
      simp [getCell]
    · rw [getCell_processRow_frame t u newRow "Branch"
        (not_mem_updateDateCols (by decide) _) (by decide) (by decide) (by decide)]
      show getCell (("Lead Name", Cell.str name) :: ("District", Cell.str district)
        :: ("Branch", Cell.str branch) :: _) "Branch" = Cell.str branch
      simp [getCell]
    · rw [getCell_processRow_frame t u newRow "Update Count"
        (not_mem_updateDateCols (by decide) _) (by decide) (by decide) (by decide)]
      show getCell (("Lead Name", Cell.str name) :: ("District", Cell.str district)
        :: ("Branch", Cell.str branch) :: ("Update Count", Cell.nat 1) :: _)
        "Update Count" = Cell.nat 1
      simp [getCell]
    · have hcond : (hasSubstr (updTextCol 1) "Update" && hasSubstr (updTextCol 1) "Date")
          = false := by
        rw [hasSubstr_updTextCol_Date 1]
        simp
      rw [getCell_processRow_frame t u newRow (updTextCol 1)
        (not_mem_updateDateCols hcond _) ((updTextCol_ne_fixed 1).2.2.2.2.1)
        ((updTextCol_ne_fixed 1).2.2.2.2.2.1) ((updTextCol_ne_fixed 1).2.2.2.2.2.2)]
      have hLN := Ne.symm (updTextCol_ne_fixed 1).2.1
      have hD := Ne.symm (updTextCol_ne_fixed 1).2.2.1
      have hB := Ne.symm (updTextCol_ne_fixed 1).2.2.2.1
      have hUC := Ne.symm (updTextCol_ne_fixed 1).1
      show getCell newRow (updTextCol 1) = Cell.str note
      rw [hnewRow]
      unfold newLeadRow
      rw [show getCell (("Lead Name", Cell.str name) :: ("District", Cell.str district)
          :: ("Branch", Cell.str branch) :: ("Update Count", Cell.nat 1)
          :: (updTextCol 1, Cell.str note) :: [(updDateCol 1, Cell.str dateStr)])
          (updTextCol 1)
        = getCell ((updTextCol 1, Cell.str note) :: [(updDateCol 1, Cell.str dateStr)])
          (updTextCol 1) from by
          show (if "Lead Name" = updTextCol 1 then Cell.str name else _) = _
          rw [if_neg hLN]
          show (if "District" = updTextCol 1 then Cell.str district else _) = _
          rw [if_neg hD]
          show (if "Branch" = updTextCol 1 then Cell.str branch else _) = _
          rw [if_neg hB]
          show (if "Update Count" = updTextCol 1 then Cell.nat 1 else _) = _
          rw [if_neg hUC]]
      show (if updTextCol 1 = updTextCol 1 then Cell.str note else _) = _
      rw [if_pos rfl]
    · have hudm : updDateCol 1 ∈ u := by
        rw [hu, hnewRow]
        exact updDateCol_one_mem_entry_cols name district branch note dateStr df
      rw [getCell_processRow_ud t u newRow (updDateCol 1) hudm
        ((updDateCol_ne_fixed 1).2.2.2.2.1) ((updDateCol_ne_fixed 1).2.2.2.2.2.1)
        ((updDateCol_ne_fixed 1).2.2.2.2.2.2)]
      have hLN := Ne.symm (updDateCol_ne_fixed 1).2.1
      have hD := Ne.symm (updDateCol_ne_fixed 1).2.2.1
      have hB := Ne.symm (updDateCol_ne_fixed 1).2.2.2.1
      have hUC := Ne.symm (updDateCol_ne_fixed 1).1
      have htd := updTextCol_ne_updDateCol 1 1
      have hgd : getCell newRow (updDateCol 1) = Cell.str dateStr := by
        rw [hnewRow]
        unfold newLeadRow
        show (if "Lead Name" = updDateCol 1 then Cell.str name else _) = _
        rw [if_neg hLN]
        show (if "District" = updDateCol 1 then Cell.str district else _) = _
        rw [if_neg hD]
        show (if "Branch" = updDateCol 1 then Cell.str branch else _) = _
        rw [if_neg hB]
        show (if "Update Count" = updDateCol 1 then Cell.nat 1 else _) = _
        rw [if_neg hUC]
        show (if updTextCol 1 = updDateCol 1 then Cell.str note else _) = _
        rw [if_neg htd]
        show (if updDateCol 1 = updDateCol 1 then Cell.str dateStr else _) = _
        rw [if_pos rfl]
      rw [hgd]
      rfl

/-- Example table for the C2 witness: lead `A` with one recorded update. -/
def c2udf : DF :=
  ⟨["Lead Name", "District", "Branch", "Update Count", "Update 1 Text", "Update 1 Date"],
   [[("Lead Name", .str "A"), ("District", .str "X"), ("Branch", .str "Y"),
     ("Update Count", .nat 1), ("Update 1 Text", .str "x"),
     ("Update 1 Date", .str "2025-01-01")]]⟩

def c2row0 : Row :=
  [("Lead Name", .str "A"), ("District", .str "X"), ("Branch", .str "Y"),
   ("Update Count", .nat 1), ("Update 1 Text", .str "x"),
   ("Update 1 Date", .str "2025-01-01")]

theorem C2_appendUpdate_amended_witness :
    (∃ df', update_form_submit "A" "n2" "2025-02-03" c2udf = .saved df' ∧
      ∀ (i : Nat) (r : Row), c2udf.rows[i]? = some r → nameMask "A" r = true →
        ∃ r', df'.rows[i]? = some r' ∧
          getCell r' (updTextCol (1 + 1)) = .str "n2" ∧
          getCell r' (updDateCol (1 + 1)) = .str "2025-02-03" ∧
          getCell r' "Update Count" = .nat (1 + 1)) ∧
    (∃ df', entry_form_submit 0 "B" "D" "Br" "99" "bn" "2025-01-02" c2udf = .saved df' ∧
      ∃ rN, df'.rows[c2udf.rows.length]? = some rN ∧
        getCell rN "Lead Name" = .str "B" ∧
        getCell rN "District" = .str "D" ∧
        getCell rN "Branch" = .str "Br" ∧
        getCell rN "Update Count" = .nat 1 ∧
        getCell rN (updTextCol 1) = .str "bn" ∧
        getCell rN (updDateCol 1) = .dt (parseDate "2025-01-02")) :=
  ⟨C2_appendUpdate_amended.1 "A" "n2" "2025-02-03" c2udf c2row0 1
     (by decide) (by decide) (by decide),
   C2_appendUpdate_amended.2 0 "B" "D" "Br" "99" "bn" "2025-01-02" c2udf
     (by decide) (by decide) (by decide)⟩

/-- Example table for C10: lead `A` exists with a string-valued date
cell. -/
def c10df : DF :=
  ⟨["Lead Name", "District", "Branch", "Update Count", "Update 1 Text", "Update 1 Date"],
   [[("Lead Name", .str "A"), ("District", .str "X"), ("Branch", .str "Y"),
     ("Update Count", .nat 1), ("Update 1 Text", .str "x"),
     ("Update 1 Date", .str "2025-01-01")]]⟩

/-- **C10 (counterexample).**  Appending a brand-new lead does NOT leave
the existing rows entirely unchanged: line 170 runs
`highlight_inactivity` on the whole table, so lead `A`'s
`Update 1 Date` cell turns from the string `"2025-01-01"` into a parsed
datetime, and `A`'s row gains the three derived columns. -/
theorem C10_new_lead_changes_other_rows_counterexample :
    entry_form_submit 0 "B" "D" "Br" "9" "note2" "2025-02-01" c10df
      = .saved (highlight_inactivity 0
          (concatRow c10df (newLeadRow "B" "D" "Br" "note2" "2025-02-01"))) ∧
    ((highlight_inactivity 0
        (concatRow c10df (newLeadRow "B" "D" "Br" "note2" "2025-02-01"))).rows.map
      (fun r => getCell r "Update 1 Date"))[0]?
      = some (Cell.dt (some (daysFromCivil 2025 1 1))) ∧
    (c10df.rows.map (fun r => getCell r "Update 1 Date"))[0]?
      = some (Cell.str "2025-01-01") ∧
    ((highlight_inactivity 0
        (concatRow c10df (newLeadRow "B" "D" "Br" "note2" "2025-02-01"))).rows[0]?
      ≠ c10df.rows[0]?) := by
  refine ⟨by decide, by decide, by decide, by decide⟩

/-- **C10 (amended).**  Frame property of the two append paths.  Existing
path (lines 125–145): on a table whose `Update {c+1}` text/date columns
exist in pairs, every row whose `Lead Name` differs from the target is
entirely unchanged when the columns already exist, and otherwise changes
only by gaining the two new columns initialized to `""`.  New-lead path
(lines 148–172): every existing row keeps its position, its cells outside
the update-date columns and the three derived columns are unchanged, its
update-date cells are replaced by their parsed datetime values
(line 170's recomputation), and the new row is appended after all
existing rows. -/
theorem C10_append_frame :
    (∀ (name note dateStr : String) (df : DF) (r0 : Row) (c0 : Nat),
      note ≠ "" →
      df.rows.find? (nameMask name) = some r0 →
      toCount (getCell r0 "Update Count") = some c0 →
      (updDateCol (c0 + 1) ∈ df.cols ↔ updTextCol (c0 + 1) ∈ df.cols) →
      ∃ df', update_form_submit name note dateStr df = .saved df' ∧
        ∀ (i : Nat) (r : Row), df.rows[i]? = some r → nameMask name r = false →
          ∃ r', df'.rows[i]? = some r' ∧
            (∀ c : String, c ≠ updTextCol (c0 + 1) → c ≠ updDateCol (c0 + 1) →
              getCell r' c = getCell r c) ∧
            (updTextCol (c0 + 1) ∈ df.cols → r' = r) ∧
            (updTextCol (c0 + 1) ∉ df.cols →
              getCell r' (updTextCol (c0 + 1)) = .str "" ∧
              getCell r' (updDateCol (c0 + 1)) = .str "")) ∧
    (∀ (t : Int) (name district branch phone note dateStr : String) (df : DF),
      name ≠ "" → phone ≠ "" → note ≠ "" →
      ∃ df', entry_form_submit t name district branch phone note dateStr df = .saved df' ∧
        df'.rows.length = df.rows.length + 1 ∧
        (∃ rN, df'.rows[df.rows.length]? = some rN) ∧
        (∀ (i : Nat) (r : Row), df.rows[i]? = some r →
          ∃ r', df'.rows[i]? = some r' ∧
            (∀ c : String,
              c ∉ updateDateCols (concatRow df
                (newLeadRow name district branch note dateStr)).cols →
              c ≠ "Last Update Date" → c ≠ "Days Since Last Update" → c ≠ "Inactive" →
              getCell r' c = getCell r c) ∧
            (∀ c : String,
              c ∈ updateDateCols (concatRow df
                (newLeadRow name district branch note dateStr)).cols →
              c ≠ "Last Update Date" →
              getCell r' c = .dt (toDatetime (getCell r c))))) := by
  constructor
  · intro name note dateStr df r0 c0 hnote hfind hcount hpair
    have hstep : update_form_submit name note dateStr df
        = .saved (locSet (locSet (locSet
            (if updTextCol (c0 + 1) ∈ df.cols then df
             else setColConst (setColConst df (updTextCol (c0 + 1)) (.str ""))
               (updDateCol (c0 + 1)) (.str ""))
            (updTextCol (c0 + 1)) (nameMask name) (.str note))
            (updDateCol (c0 + 1)) (nameMask name) (.str dateStr))
            "Update Count" (nameMask name) (.nat (c0 + 1))) := by
      rw [update_form_submit]
      simp only [if_neg hnote, hfind, hcount]
    refine ⟨_, hstep, ?_⟩
    intro i r hr hmask
    have htd : updTextCol (c0 + 1) ≠ updDateCol (c0 + 1) :=
      updTextCol_ne_updDateCol (c0 + 1) (c0 + 1)
    by_cases hmem : updTextCol (c0 + 1) ∈ df.cols
    · -- both columns already exist: the row is untouched
      have hr1 : (if updTextCol (c0 + 1) ∈ df.cols then df
          else setColConst (setColConst df (updTextCol (c0 + 1)) (.str ""))
            (updDateCol (c0 + 1)) (.str "")).rows[i]? = some r := by
        rw [if_pos hmem]
        exact hr
      have hr2 := locSet_rows_getElem _ (updTextCol (c0 + 1)) (nameMask name)
        (.str note) i r hr1
      rw [if_neg (mask_ne_true hmask)] at hr2
      have hr3 := locSet_rows_getElem _ (updDateCol (c0 + 1)) (nameMask name)
        (.str dateStr) i r hr2
      rw [if_neg (mask_ne_true hmask)] at hr3
      have hr4 := locSet_rows_getElem _ "Update Count" (nameMask name)
        (.nat (c0 + 1)) i r hr3
      rw [if_neg (mask_ne_true hmask)] at hr4
      exact ⟨r, hr4, fun c h1 h2 => rfl, fun _ => rfl, fun habs => absurd hmem habs⟩
    · -- the two fresh columns are created blank for every row
      have hr1 : (if updTextCol (c0 + 1) ∈ df.cols then df
          else setColConst (setColConst df (updTextCol (c0 + 1)) (.str ""))
            (updDateCol (c0 + 1)) (.str "")).rows[i]?
          = some (setCell (setCell r (updTextCol (c0 + 1)) (.str ""))
              (updDateCol (c0 + 1)) (.str "")) := by
        rw [if_neg hmem]
        exact setColConst_rows_getElem _ _ _ i _ (setColConst_rows_getElem _ _ _ i r hr)
      have hmask1 : nameMask name (setCell (setCell r (updTextCol (c0 + 1)) (.str ""))
          (updDateCol (c0 + 1)) (.str "")) = false := by
        rw [nameMask_setCell _ _ _ _ ((updDateCol_ne_fixed (c0 + 1)).2.1),
          nameMask_setCell _ _ _ _ ((updTextCol_ne_fixed (c0 + 1)).2.1)]
        exact hmask
      have hr2 := locSet_rows_getElem _ (updTextCol (c0 + 1)) (nameMask name)
        (.str note) i _ hr1
      rw [if_neg (mask_ne_true hmask1)] at hr2
      have hr3 := locSet_rows_getElem _ (updDateCol (c0 + 1)) (nameMask name)
        (.str dateStr) i _ hr2
      rw [if_neg (mask_ne_true hmask1)] at hr3
      have hr4 := locSet_rows_getElem _ "Update Count" (nameMask name)
        (.nat (c0 + 1)) i _ hr3
      rw [if_neg (mask_ne_true hmask1)] at hr4
      refine ⟨_, hr4, ?_, fun habs => absurd habs hmem, fun _ => ⟨?_, ?_⟩⟩
      · intro c h1 h2
        rw [getCell_setCell_ne _ _ _ _ (Ne.symm h2), getCell_setCell_ne _ _ _ _ (Ne.symm h1)]
      · rw [getCell_setCell_ne _ _ _ _ (Ne.symm htd), getCell_setCell_same]
      · rw [getCell_setCell_same]
  · intro t name district branch phone note dateStr df hname hphone hnote
    rw [entry_form_submit_saved t name district branch phone note dateStr df
      hname hphone hnote]
    have hne := entry_cols_ud_ne_nil name district branch note dateStr df
    rw [highlight_nonempty t _ hne]
    set newRow := newLeadRow name district branch note dateStr with hnewRow
    set u := updateDateCols (concatRow df newRow).cols with hu
    have hrows : (concatRow df newRow).rows = df.rows ++ [newRow] := rfl
    refine ⟨_, rfl, ?_, ?_, ?_⟩
    · show ((concatRow df newRow).rows.map (processRow t u)).length = df.rows.length + 1
      rw [List.length_map, hrows, List.length_append]
      rfl
    · refine ⟨processRow t u newRow, ?_⟩
      show ((concatRow df newRow).rows.map (processRow t u))[df.rows.length]? = _
      rw [List.getElem?_map, hrows, List.getElem?_concat_length]
      rfl
    · intro i r hr
      have hlt : i < df.rows.length := by
        by_contra hge
        rw [List.getElem?_eq_none (by omega)] at hr
        cases hr
      refine ⟨processRow t u r, ?_, ?_, ?_⟩
      · show ((concatRow df newRow).rows.map (processRow t u))[i]? = _
        rw [List.getElem?_map, hrows, List.getElem?_append, if_pos hlt, hr]
        rfl
      · intro c hcu h2 h3 h4
        exact getCell_processRow_frame t u r c hcu h2 h3 h4
      · intro c hcu h2
        have h3 : c ≠ "Days Since Last Update" := by
          intro heq
          rw [heq] at hcu
          exact days_not_ud _ hcu
        have h4 : c ≠ "Inactive" := by
          intro heq
          rw [heq] at hcu
          exact inactive_not_ud _ hcu
        exact getCell_processRow_ud t u r c hcu h2 h3 h4

theorem C10_append_frame_witness :
    (∃ df', update_form_submit "A" "n2" "2025-02-03" c10df = .saved df' ∧
      ∀ (i : Nat) (r : Row), c10df.rows[i]? = some r → nameMask "A" r = false →
        ∃ r', df'.rows[i]? = some r' ∧
          (∀ c : String, c ≠ updTextCol (1 + 1) → c ≠ updDateCol (1 + 1) →
            getCell r' c = getCell r c) ∧
          (updTextCol (1 + 1) ∈ c10df.cols → r' = r) ∧
          (updTextCol (1 + 1) ∉ c10df.cols →
            getCell r' (updTextCol (1 + 1)) = .str "" ∧
            getCell r' (updDateCol (1 + 1)) = .str "")) ∧
    (∃ df', entry_form_submit 0 "B" "D" "Br" "9" "note2" "2025-02-01" c10df = .saved df' ∧
      df'.rows.length = c10df.rows.length + 1 ∧
      (∃ rN, df'.rows[c10df.rows.length]? = some rN) ∧
      (∀ (i : Nat) (r : Row), c10df.rows[i]? = some r →
        ∃ r', df'.rows[i]? = some r' ∧
          (∀ c : String,
            c ∉ updateDateCols (concatRow c10df
              (newLeadRow "B" "D" "Br" "note2" "2025-02-01")).cols →
            c ≠ "Last Update Date" → c ≠ "Days Since Last Update" → c ≠ "Inactive" →
            getCell r' c = getCell r c) ∧
          (∀ c : String,
            c ∈ updateDateCols (concatRow c10df
              (newLeadRow "B" "D" "Br" "note2" "2025-02-01")).cols →
            c ≠ "Last Update Date" →
            getCell r' c = .dt (toDatetime (getCell r c))))) :=
  ⟨C10_append_frame.1 "A" "n2" "2025-02-03" c10df c2row0 1
     (by decide) (by decide) (by decide) (by decide),
   C10_append_frame.2 0 "B" "D" "Br" "9" "note2" "2025-02-01" c10df
     (by decide) (by decide) (by decide)⟩

/-! ## The C3 invariant: update counts match the stored updates -/

/-- A populated update-text cell: a non-empty string. -/
def textPop : Cell → Bool
  | .str s => decide (s ≠ "")
  | _ => false

/-- A blank update-text cell: the empty string (written by lines 137–138)
or a missing value. -/
def textBlank : Cell → Bool
  | .str s => s == ""
  | .nan => true
  | _ => false

/-- A populated update-date cell: a parseable date string (as written by
`strftime` at lines 141/166) or an already-parsed datetime. -/
def dateGood : Cell → Bool
  | .str s => (parseDate s).isSome
  | .dt (some _) => true
  | _ => false

/-- A blank update-date cell: the empty string, a missing value, or a
parsed `NaT`. -/
def dateBlank : Cell → Bool
  | .str s => s == ""
  | .nan => true
  | .dt none => true
  | _ => false

/-- The per-row invariant of C3: the `Update Count` cell holds an integer
`c`, and the update columns `1, …, c` are exactly the populated ones —
text cells non-empty and date cells parseable below the count, text cells
blank and date cells blank above it (no gaps and no reuse). -/
def rowInv (r : Row) : Prop :=
  ∃ c : Nat, getCell r "Update Count" = .nat c ∧
    ∀ k : Nat, 1 ≤ k →
      (k ≤ c → textPop (getCell r (updTextCol k)) = true ∧
        dateGood (getCell r (updDateCol k)) = true) ∧
      (c < k → textBlank (getCell r (updTextCol k)) = true ∧
        dateBlank (getCell r (updDateCol k)) = true)

/-- The table invariant of C3: every row satisfies `rowInv`, only binds
columns the table declares, and `Lead Name` cells are pairwise distinct. -/
def dfInv (df : DF) : Prop :=
  (∀ r ∈ df.rows, rowInv r ∧ ∀ x ∈ rowKeys r, x ∈ df.cols) ∧
  df.rows.Pairwise (fun r1 r2 => getCell r1 "Lead Name" ≠ getCell r2 "Lead Name")

theorem hasKey_iff_mem_rowKeys (r : Row) (c : String) :
    hasKey r c = true ↔ c ∈ rowKeys r := by
  induction r with
  | nil => simp [hasKey, rowKeys]
  | cons p t ih =>
    obtain ⟨c0, v0⟩ := p
    show (decide (c0 = c) || hasKey t c) = true ↔ c ∈ c0 :: rowKeys t
    rw [Bool.or_eq_true, decide_eq_true_iff, List.mem_cons, ih]
    constructor
    · rintro (h | h)
      · exact Or.inl h.symm
      · exact Or.inr h
    · rintro (h | h)
      · exact Or.inl h.symm
      · exact Or.inr h

theorem updTextCol_not_ud (k : Nat) (cs : List String) :
    updTextCol k ∉ updateDateCols cs := by
  apply not_mem_updateDateCols
  rw [hasSubstr_updTextCol_Date k]
  simp

theorem updCount_not_ud (cs : List String) : "Update Count" ∉ updateDateCols cs :=
  not_mem_updateDateCols (by decide) cs

theorem updDateCol_mem_ud_iff (k : Nat) (cs : List String) :
    updDateCol k ∈ updateDateCols cs ↔ updDateCol k ∈ cs := by
  constructor
  · intro h
    exact (List.mem_filter.mp h).1
  · intro h
    apply mem_updateDateCols_of_mem _ h
    rw [(hasSubstr_updDateCol k).1, (hasSubstr_updDateCol k).2]
    rfl

/-- `processRow` preserves the per-row invariant: text and count cells lie
outside the update-date columns and are untouched; date cells either stay
put or are parsed, which keeps populated cells populated and blank cells
blank. -/
theorem processRow_rowInv (t : Int) (cs : List String) (r : Row)
    (hinv : rowInv r) (hwf : ∀ x ∈ rowKeys r, x ∈ cs) :
    rowInv (processRow t (updateDateCols cs) r) := by
  obtain ⟨c, hcount, hcells⟩ := hinv
  refine ⟨c, ?_, ?_⟩
  · rw [getCell_processRow_frame t _ r "Update Count" (updCount_not_ud cs)
      (by decide) (by decide) (by decide)]
    exact hcount
  · intro k hk
    have htext : getCell (processRow t (updateDateCols cs) r) (updTextCol k)
        = getCell r (updTextCol k) :=
      getCell_processRow_frame t _ r (updTextCol k) (updTextCol_not_ud k cs)
        ((updTextCol_ne_fixed k).2.2.2.2.1) ((updTextCol_ne_fixed k).2.2.2.2.2.1)
        ((updTextCol_ne_fixed k).2.2.2.2.2.2)
    have hdate : ∀ v : Cell, getCell r (updDateCol k) = v →
        (dateGood v = true → dateGood (getCell (processRow t (updateDateCols cs) r)
          (updDateCol k)) = true) ∧
        (dateBlank v = true → dateBlank (getCell (processRow t (updateDateCols cs) r)
          (updDateCol k)) = true) := by
      intro v hv
      by_cases hmem : updDateCol k ∈ updateDateCols cs
      · have hud := getCell_processRow_ud t _ r (updDateCol k) hmem
          ((updDateCol_ne_fixed k).2.2.2.2.1) ((updDateCol_ne_fixed k).2.2.2.2.2.1)
          ((updDateCol_ne_fixed k).2.2.2.2.2.2)
        rw [hud, hv]
        constructor
        · intro hg
          cases v with
          | str s =>
            show dateGood (Cell.dt (parseDate s)) = true
            have : (parseDate s).isSome = true := hg
            cases hp : parseDate s with
            | none => rw [hp] at this; cases this
            | some d => rfl
          | dt o =>
            cases o with
            | none => cases hg
            | some d => rfl
          | nat n => cases hg
          | days o => cases hg
          | bool b => cases hg
          | nan => cases hg
        · intro hb
          cases v with
          | str s =>
            show dateBlank (Cell.dt (parseDate s)) = true
            have hs : s = "" := by simpa [dateBlank] using hb
            rw [hs]
            rfl
          | dt o =>
            cases o with
            | none => rfl
            | some d => cases hb
          | nat n => cases hb
          | days o => cases hb
          | bool b => cases hb
          | nan => rfl
      · have hfr := getCell_processRow_frame t _ r (updDateCol k) hmem
          ((updDateCol_ne_fixed k).2.2.2.2.1) ((updDateCol_ne_fixed k).2.2.2.2.2.1)
          ((updDateCol_ne_fixed k).2.2.2.2.2.2)
        rw [hfr, hv]
        exact ⟨fun hg => hg, fun hb => hb⟩
    constructor
    · intro hkc
      obtain ⟨hp, hg⟩ := (hcells k hk).1 hkc
      refine ⟨by rw [htext]; exact hp, ?_⟩
      exact (hdate _ rfl).1 hg
    · intro hck
      obtain ⟨hp, hb⟩ := (hcells k hk).2 hck
      refine ⟨by rw [htext]; exact hp, ?_⟩
      exact (hdate _ rfl).2 hb

theorem nameMask_true_iff (name : String) (r : Row) :
    nameMask name r = true ↔ getCell r "Lead Name" = .str name := by
  unfold nameMask
  constructor
  · exact eq_of_beq
  · intro h
    rw [h]
    exact beq_self_eq_true _

/-- The pairwise-distinct-names property survives any rowwise map that
preserves the `Lead Name` cell. -/
theorem pairwise_names_map (l : List Row) (g : Row → Row)
    (hg : ∀ r, getCell (g r) "Lead Name" = getCell r "Lead Name")
    (h : l.Pairwise (fun r1 r2 => getCell r1 "Lead Name" ≠ getCell r2 "Lead Name")) :
    (l.map g).Pairwise (fun r1 r2 => getCell r1 "Lead Name" ≠ getCell r2 "Lead Name") := by
  rw [List.pairwise_map]
  apply h.imp
  intro a b hab
  rw [hg a, hg b]
  exact hab

/-- Under pairwise-distinct names, any row matching the mask is the row
`find?` located. -/
theorem matched_eq_found (df : DF) (name : String) (r0 : Row)
    (hfind : df.rows.find? (nameMask name) = some r0)
    (hpw : df.rows.Pairwise (fun r1 r2 => getCell r1 "Lead Name" ≠ getCell r2 "Lead Name")) :
    ∀ r ∈ df.rows, nameMask name r = true → r = r0 := by
  intro r hr hm
  have hr0mem := List.mem_of_find?_eq_some hfind
  have hm0 := List.find?_some hfind
  by_contra hne
  have hrel := List.Pairwise.forall
    (fun {a b} (h : getCell a "Lead Name" ≠ getCell b "Lead Name") => h.symm)
    hpw hr hr0mem hne
  rw [(nameMask_true_iff name r).mp hm, (nameMask_true_iff name r0).mp hm0] at hrel
  exact hrel rfl

/-- The cells of the fresh row of lines 160–167. -/
theorem newLeadRow_cells (name district branch note dateStr : String) :
    getCell (newLeadRow name district branch note dateStr) "Lead Name" = .str name ∧
    getCell (newLeadRow name district branch note dateStr) "Update Count" = .nat 1 ∧
    getCell (newLeadRow name district branch note dateStr) (updTextCol 1) = .str note ∧
    getCell (newLeadRow name district branch note dateStr) (updDateCol 1) = .str dateStr ∧
    (∀ k : Nat, 2 ≤ k →
      getCell (newLeadRow name district branch note dateStr) (updTextCol k) = .nan ∧
      getCell (newLeadRow name district branch note dateStr) (updDateCol k) = .nan) := by
  refine ⟨?_, ?_, ?_, ?_, ?_⟩
  · show (if "Lead Name" = "Lead Name" then Cell.str name else _) = _
    rw [if_pos rfl]
  · unfold newLeadRow
    show (if "Lead Name" = "Update Count" then Cell.str name else _) = _
    rw [if_neg (by decide)]
    show (if "District" = "Update Count" then Cell.str district else _) = _
    rw [if_neg (by decide)]
    show (if "Branch" = "Update Count" then Cell.str branch else _) = _
    rw [if_neg (by decide)]
    show (if "Update Count" = "Update Count" then Cell.nat 1 else _) = _
    rw [if_pos rfl]
  · unfold newLeadRow
    show (if "Lead Name" = updTextCol 1 then Cell.str name else _) = _
    rw [if_neg (Ne.symm (updTextCol_ne_fixed 1).2.1)]
    show (if "District" = updTextCol 1 then Cell.str district else _) = _
    rw [if_neg (Ne.symm (updTextCol_ne_fixed 1).2.2.1)]
    show (if "Branch" = updTextCol 1 then Cell.str branch else _) = _
    rw [if_neg (Ne.symm (updTextCol_ne_fixed 1).2.2.2.1)]
    show (if "Update Count" = updTextCol 1 then Cell.nat 1 else _) = _
    rw [if_neg (Ne.symm (updTextCol_ne_fixed 1).1)]
    show (if updTextCol 1 = updTextCol 1 then Cell.str note else _) = _
    rw [if_pos rfl]
  · unfold newLeadRow
    show (if "Lead Name" = updDateCol 1 then Cell.str name else _) = _
    rw [if_neg (Ne.symm (updDateCol_ne_fixed 1).2.1)]
    show (if "District" = updDateCol 1 then Cell.str district else _) = _
    rw [if_neg (Ne.symm (updDateCol_ne_fixed 1).2.2.1)]
    show (if "Branch" = updDateCol 1 then Cell.str branch else _) = _
    rw [if_neg (Ne.symm (updDateCol_ne_fixed 1).2.2.2.1)]
    show (if "Update Count" = updDateCol 1 then Cell.nat 1 else _) = _
    rw [if_neg (Ne.symm (updDateCol_ne_fixed 1).1)]
    show (if updTextCol 1 = updDateCol 1 then Cell.str note else _) = _
    rw [if_neg (updTextCol_ne_updDateCol 1 1)]
    show (if updDateCol 1 = updDateCol 1 then Cell.str dateStr else _) = _
    rw [if_pos rfl]
  · intro k hk
    have hk1 : (1 : Nat) ≠ k := by omega
    constructor
    · unfold newLeadRow
      show (if "Lead Name" = updTextCol k then Cell.str name else _) = _
      rw [if_neg (Ne.symm (updTextCol_ne_fixed k).2.1)]
      show (if "District" = updTextCol k then Cell.str district else _) = _
      rw [if_neg (Ne.symm (updTextCol_ne_fixed k).2.2.1)]
      show (if "Branch" = updTextCol k then Cell.str branch else _) = _
      rw [if_neg (Ne.symm (updTextCol_ne_fixed k).2.2.2.1)]
      show (if "Update Count" = updTextCol k then Cell.nat 1 else _) = _
      rw [if_neg (Ne.symm (updTextCol_ne_fixed k).1)]
      show (if updTextCol 1 = updTextCol k then Cell.str note else _) = _
      rw [if_neg (fun h => hk1 (updTextCol_inj h))]
      show (if updDateCol 1 = updTextCol k then Cell.str dateStr else _) = _
      rw [if_neg (Ne.symm (updTextCol_ne_updDateCol k 1))]
      rfl
    · unfold newLeadRow
      show (if "Lead Name" = updDateCol k then Cell.str name else _) = _
      rw [if_neg (Ne.symm (updDateCol_ne_fixed k).2.1)]
      show (if "District" = updDateCol k then Cell.str district else _) = _
      rw [if_neg (Ne.symm (updDateCol_ne_fixed k).2.2.1)]
      show (if "Branch" = updDateCol k then Cell.str branch else _) = _
      rw [if_neg (Ne.symm (updDateCol_ne_fixed k).2.2.2.1)]
      show (if "Update Count" = updDateCol k then Cell.nat 1 else _) = _
      rw [if_neg (Ne.symm (updDateCol_ne_fixed k).1)]
      show (if updTextCol 1 = updDateCol k then Cell.str note else _) = _
      rw [if_neg (updTextCol_ne_updDateCol 1 k)]
      show (if updDateCol 1 = updDateCol k then Cell.str dateStr else _) = _
      rw [if_neg (fun h => hk1 (updDateCol_inj h))]
      rfl

/-- The fresh row of lines 160–167 satisfies the C3 row invariant with
count 1. -/
theorem newLeadRow_rowInv (name district branch note dateStr : String)
    (hnote : note ≠ "") (hdate : (parseDate dateStr).isSome = true) :
    rowInv (newLeadRow name district branch note dateStr) := by
  obtain ⟨hLN, hUC, hT1, hD1, hHigh⟩ := newLeadRow_cells name district branch note dateStr
  refine ⟨1, hUC, ?_⟩
  intro k hk
  constructor
  · intro hk1
    have hkeq : k = 1 := by omega
    subst hkeq
    refine ⟨?_, ?_⟩
    · rw [hT1]
      exact decide_eq_true hnote
    · rw [hD1]
      exact hdate
  · intro h1k
    obtain ⟨hT, hD⟩ := hHigh k (by omega)
    rw [hT, hD]
    exact ⟨rfl, rfl⟩

/-- The three `.loc` assignments of lines 140–142 preserve the table
invariant: rows not matching the mask are untouched, and the matched row
(whose count is `c0`) gets exactly the cells `Update {c0+1} Text/Date` and
the incremented count. -/
theorem locSet3_inv (df1 : DF) (name note dateStr : String) (c0 : Nat)
    (hnote : note ≠ "") (hdate : (parseDate dateStr).isSome = true)
    (H1 : ∀ r1 ∈ df1.rows, ∀ x ∈ rowKeys r1, x ∈ df1.cols)
    (H2 : ∀ r1 ∈ df1.rows, rowInv r1)
    (H3 : ∀ r1 ∈ df1.rows, nameMask name r1 = true →
      getCell r1 "Update Count" = .nat c0)
    (H4 : df1.rows.Pairwise (fun r1 r2 =>
      getCell r1 "Lead Name" ≠ getCell r2 "Lead Name")) :
    dfInv (locSet (locSet (locSet df1 (updTextCol (c0 + 1)) (nameMask name) (.str note))
        (updDateCol (c0 + 1)) (nameMask name) (.str dateStr))
        "Update Count" (nameMask name) (.nat (c0 + 1))) := by
  have hLNt : updTextCol (c0 + 1) ≠ "Lead Name" := (updTextCol_ne_fixed (c0 + 1)).2.1
  have hLNd : updDateCol (c0 + 1) ≠ "Lead Name" := (updDateCol_ne_fixed (c0 + 1)).2.1
  have hUCt : updTextCol (c0 + 1) ≠ "Update Count" := (updTextCol_ne_fixed (c0 + 1)).1
  have hUCd : updDateCol (c0 + 1) ≠ "Update Count" := (updDateCol_ne_fixed (c0 + 1)).1
  have htd : updTextCol (c0 + 1) ≠ updDateCol (c0 + 1) :=
    updTextCol_ne_updDateCol (c0 + 1) (c0 + 1)
  -- the composed rowwise action of the three `.loc` assignments
  have hrows : (locSet (locSet (locSet df1 (updTextCol (c0 + 1)) (nameMask name)
        (.str note)) (updDateCol (c0 + 1)) (nameMask name) (.str dateStr))
        "Update Count" (nameMask name) (.nat (c0 + 1))).rows
      = df1.rows.map (fun r =>
          if nameMask name r then
            setCell (setCell (setCell r (updTextCol (c0 + 1)) (.str note))
              (updDateCol (c0 + 1)) (.str dateStr)) "Update Count" (.nat (c0 + 1))
          else r) := by
    show ((df1.rows.map _).map _).map _ = _
    rw [List.map_map, List.map_map]
    apply List.map_congr_left
    intro r hr
    by_cases hm : nameMask name r = true
    · have hm2 : nameMask name (setCell r (updTextCol (c0 + 1)) (.str note)) = true := by
        rw [nameMask_setCell _ _ _ _ hLNt]
        exact hm
      have hm3 : nameMask name (setCell (setCell r (updTextCol (c0 + 1)) (.str note))
          (updDateCol (c0 + 1)) (.str dateStr)) = true := by
        rw [nameMask_setCell _ _ _ _ hLNd]
        exact hm2
      simp [hm, hm2, hm3]
    · have hm' : nameMask name r = false := by
        cases h : nameMask name r
        · rfl
        · exact absurd h hm
      simp [hm']
  constructor
  · intro r4 hr4
    rw [hrows] at hr4
    obtain ⟨r1, hr1, rfl⟩ := List.mem_map.mp hr4
    have hcols : ∀ x ∈ df1.cols,
        x ∈ (locSet (locSet (locSet df1 (updTextCol (c0 + 1)) (nameMask name)
          (.str note)) (updDateCol (c0 + 1)) (nameMask name) (.str dateStr))
          "Update Count" (nameMask name) (.nat (c0 + 1))).cols := by
      intro x hx
      exact mem_addCol_of_mem _ (mem_addCol_of_mem _ (mem_addCol_of_mem _ hx))
    by_cases hm : nameMask name r1 = true
    · rw [if_pos hm]
      obtain ⟨c1, hc1, hcells1⟩ := H2 r1 hr1
      have hc10 : c1 = c0 := by
        have := H3 r1 hr1 hm
        rw [hc1] at this
        injection this
      subst hc10
      constructor
      · -- row invariant with the incremented count
        refine ⟨c1 + 1, ?_, ?_⟩
        · rw [getCell_setCell_same]
        · intro k hk
          constructor
          · intro hkc
            by_cases hke : k = c1 + 1
            · subst hke
              constructor
              · rw [getCell_setCell_ne _ _ _ _ (Ne.symm hUCt),
                  getCell_setCell_ne _ _ _ _ (Ne.symm htd), getCell_setCell_same]
                exact decide_eq_true hnote
              · rw [getCell_setCell_ne _ _ _ _ (Ne.symm hUCd), getCell_setCell_same]
                exact hdate
            · have hkc1 : k ≤ c1 := by omega
              have hTne : updTextCol k ≠ updTextCol (c1 + 1) :=
                fun h => hke (updTextCol_inj h)
              have hDne : updDateCol k ≠ updDateCol (c1 + 1) :=
                fun h => hke (updDateCol_inj h)
              obtain ⟨hp, hg⟩ := (hcells1 k hk).1 hkc1
              constructor
              · rw [getCell_setCell_ne _ _ _ _ (Ne.symm (updTextCol_ne_fixed k).1),
                  getCell_setCell_ne _ _ _ _ (Ne.symm (updTextCol_ne_updDateCol k (c1 + 1))),
                  getCell_setCell_ne _ _ _ _ hTne.symm]
                exact hp
              · rw [getCell_setCell_ne _ _ _ _ (Ne.symm (updDateCol_ne_fixed k).1),
                  getCell_setCell_ne _ _ _ _ hDne.symm,
                  getCell_setCell_ne _ _ _ _ (updTextCol_ne_updDateCol (c1 + 1) k)]
                exact hg
          · intro hck
            have hke : k ≠ c1 + 1 := by omega
            have hTne : updTextCol k ≠ updTextCol (c1 + 1) :=
              fun h => hke (updTextCol_inj h)
            have hDne : updDateCol k ≠ updDateCol (c1 + 1) :=
              fun h => hke (updDateCol_inj h)
            obtain ⟨hp, hb⟩ := (hcells1 k hk).2 (by omega)
            constructor
            · rw [getCell_setCell_ne _ _ _ _ (Ne.symm (updTextCol_ne_fixed k).1),
                getCell_setCell_ne _ _ _ _ (Ne.symm (updTextCol_ne_updDateCol k (c1 + 1))),
                getCell_setCell_ne _ _ _ _ hTne.symm]
              exact hp
            · rw [getCell_setCell_ne _ _ _ _ (Ne.symm (updDateCol_ne_fixed k).1),
                getCell_setCell_ne _ _ _ _ hDne.symm,
                getCell_setCell_ne _ _ _ _ (updTextCol_ne_updDateCol (c1 + 1) k)]
              exact hb
      · -- well-formed keys
        intro x hx
        rcases rowKeys_setCell _ _ _ x hx with hx | hx
        · rcases rowKeys_setCell _ _ _ x hx with hx | hx
          · rcases rowKeys_setCell _ _ _ x hx with hx | hx
            · exact hcols x (H1 r1 hr1 x hx)
            · subst hx
              exact mem_addCol_of_mem _ (mem_addCol_of_mem _ (mem_addCol_self _ _))
          · subst hx
            exact mem_addCol_of_mem _ (mem_addCol_self _ _)
        · subst hx
          exact mem_addCol_self _ _
    · rw [if_neg hm]
      exact ⟨H2 r1 hr1, fun x hx => hcols x (H1 r1 hr1 x hx)⟩
  · rw [hrows]
    apply pairwise_names_map _ _ _ H4
    intro r
    by_cases hm : nameMask name r = true
    · rw [if_pos hm, getCell_setCell_ne _ _ _ _ (by decide),
        getCell_setCell_ne _ _ _ _ hLNd, getCell_setCell_ne _ _ _ _ hLNt]
    · rw [if_neg hm]

/-- The whole existing-lead append (lines 130–144) preserves the table
invariant. -/
theorem update_saved_inv (name note dateStr : String) (df : DF) (r0 : Row) (c0 : Nat)
    (hnote : note ≠ "") (hfind : df.rows.find? (nameMask name) = some r0)
    (hcount : toCount (getCell r0 "Update Count") = some c0)
    (hdate : (parseDate dateStr).isSome = true)
    (hinv : dfInv df) :
    dfInv (locSet (locSet (locSet
        (if updTextCol (c0 + 1) ∈ df.cols then df
         else setColConst (setColConst df (updTextCol (c0 + 1)) (.str ""))
           (updDateCol (c0 + 1)) (.str ""))
        (updTextCol (c0 + 1)) (nameMask name) (.str note))
        (updDateCol (c0 + 1)) (nameMask name) (.str dateStr))
        "Update Count" (nameMask name) (.nat (c0 + 1))) := by
  obtain ⟨hall, hpw⟩ := hinv
  have hr0mem : r0 ∈ df.rows := List.mem_of_find?_eq_some hfind
  obtain ⟨cR, hcR, hcellsR⟩ := (hall r0 hr0mem).1
  have hc0 : cR = c0 := by
    rw [hcR] at hcount
    have : some cR = some c0 := hcount
    injection this
  subst hc0
  have hcnt0 : ∀ r ∈ df.rows, nameMask name r = true →
      getCell r "Update Count" = .nat cR := by
    intro r hr hm
    rw [matched_eq_found df name r0 hfind hpw r hr hm]
    exact hcR
  by_cases hmem : updTextCol (cR + 1) ∈ df.cols
  · rw [if_pos hmem]
    exact locSet3_inv df name note dateStr cR hnote hdate
      (fun r hr => (hall r hr).2) (fun r hr => (hall r hr).1) hcnt0 hpw
  · rw [if_neg hmem]
    -- lines 137–138: both columns created blank for every row
    apply locSet3_inv _ name note dateStr cR hnote hdate
    · -- keys stay within the extended column list
      intro r1 hr1 x hx
      obtain ⟨r, hr, rfl⟩ : ∃ r ∈ df.rows,
          setCell (setCell r (updTextCol (cR + 1)) (.str ""))
            (updDateCol (cR + 1)) (.str "") = r1 := by
        have : r1 ∈ (df.rows.map (fun r => setCell r (updTextCol (cR + 1)) (.str ""))).map
            (fun r => setCell r (updDateCol (cR + 1)) (.str "")) := hr1
        rw [List.map_map] at this
        obtain ⟨r, hr, hre⟩ := List.mem_map.mp this
        exact ⟨r, hr, hre⟩
      rcases rowKeys_setCell _ _ _ x hx with hx | hx
      · rcases rowKeys_setCell _ _ _ x hx with hx | hx
        · exact mem_addCol_of_mem _ (mem_addCol_of_mem _ ((hall r hr).2 x hx))
        · subst hx
          exact mem_addCol_of_mem _ (mem_addCol_self _ _)
      · subst hx
        exact mem_addCol_self _ _
    · -- each row still satisfies the row invariant: the two fresh cells sit
      -- above every row's count, because a populated cell in an existing
      -- column would have put the text column in `df.cols`
      intro r1 hr1
      obtain ⟨r, hr, rfl⟩ : ∃ r ∈ df.rows,
          setCell (setCell r (updTextCol (cR + 1)) (.str ""))
            (updDateCol (cR + 1)) (.str "") = r1 := by
        have : r1 ∈ (df.rows.map (fun r => setCell r (updTextCol (cR + 1)) (.str ""))).map
            (fun r => setCell r (updDateCol (cR + 1)) (.str "")) := hr1
        rw [List.map_map] at this
        obtain ⟨r, hr, hre⟩ := List.mem_map.mp this
        exact ⟨r, hr, hre⟩
      obtain ⟨c1, hc1, hcells1⟩ := (hall r hr).1
      have hcle : c1 ≤ cR := by
        by_contra hgt
        have hkc : cR + 1 ≤ c1 := by omega
        obtain ⟨hp, _⟩ := (hcells1 (cR + 1) (by omega)).1 hkc
        have hne : getCell r (updTextCol (cR + 1)) ≠ .nan := by
          intro hEq
          rw [hEq] at hp
          cases hp
        have hkey := hasKey_of_getCell_ne_nan _ _ hne
        exact hmem ((hall r hr).2 _ ((hasKey_iff_mem_rowKeys _ _).mp hkey))
      refine ⟨c1, ?_, ?_⟩
      · rw [getCell_setCell_ne _ _ _ _ (updDateCol_ne_fixed (cR + 1)).1,
          getCell_setCell_ne _ _ _ _ (updTextCol_ne_fixed (cR + 1)).1]
        exact hc1
      · intro k hk
        constructor
        · intro hkc
          have hkne : k ≠ cR + 1 := by omega
          obtain ⟨hp, hg⟩ := (hcells1 k hk).1 hkc
          constructor
          · rw [getCell_setCell_ne _ _ _ _ (Ne.symm (updTextCol_ne_updDateCol k (cR + 1))),
              getCell_setCell_ne _ _ _ _ (fun h => hkne (updTextCol_inj h).symm)]
            exact hp
          · rw [getCell_setCell_ne _ _ _ _ (fun h => hkne (updDateCol_inj h).symm),
              getCell_setCell_ne _ _ _ _ (updTextCol_ne_updDateCol (cR + 1) k)]
            exact hg
        · intro hck
          by_cases hke : k = cR + 1
          · subst hke
            constructor
            · rw [getCell_setCell_ne _ _ _ _
                (Ne.symm (updTextCol_ne_updDateCol (cR + 1) (cR + 1))),
                getCell_setCell_same]
              rfl
            · rw [getCell_setCell_same]
              rfl
          · obtain ⟨hp, hb⟩ := (hcells1 k hk).2 hck
            constructor
            · rw [getCell_setCell_ne _ _ _ _ (Ne.symm (updTextCol_ne_updDateCol k (cR + 1))),
                getCell_setCell_ne _ _ _ _ (fun h => hke (updTextCol_inj h).symm)]
              exact hp
            · rw [getCell_setCell_ne _ _ _ _ (fun h => hke (updDateCol_inj h).symm),
                getCell_setCell_ne _ _ _ _ (updTextCol_ne_updDateCol (cR + 1) k)]
              exact hb
    · -- matched rows still carry the count the handler read
      intro r1 hr1 hm1
      obtain ⟨r, hr, rfl⟩ : ∃ r ∈ df.rows,
          setCell (setCell r (updTextCol (cR + 1)) (.str ""))
            (updDateCol (cR + 1)) (.str "") = r1 := by
        have : r1 ∈ (df.rows.map (fun r => setCell r (updTextCol (cR + 1)) (.str ""))).map
            (fun r => setCell r (updDateCol (cR + 1)) (.str "")) := hr1
        rw [List.map_map] at this
        obtain ⟨r, hr, hre⟩ := List.mem_map.mp this
        exact ⟨r, hr, hre⟩
      have hm : nameMask name r = true := by
        rw [nameMask_setCell _ _ _ _ (updDateCol_ne_fixed (cR + 1)).2.1,
          nameMask_setCell _ _ _ _ (updTextCol_ne_fixed (cR + 1)).2.1] at hm1
        exact hm1
      rw [getCell_setCell_ne _ _ _ _ (updDateCol_ne_fixed (cR + 1)).1,
        getCell_setCell_ne _ _ _ _ (updTextCol_ne_fixed (cR + 1)).1]
      exact hcnt0 r hr hm
    · -- pairwise-distinct names survive the blank-column broadcast
      show ((df.rows.map _).map _).Pairwise _
      rw [List.map_map]
      apply pairwise_names_map _ _ _ hpw
      intro r
      show getCell (setCell (setCell r (updTextCol (cR + 1)) (.str ""))
        (updDateCol (cR + 1)) (.str "")) "Lead Name" = _
      rw [getCell_setCell_ne _ _ _ _ (updDateCol_ne_fixed (cR + 1)).2.1,
        getCell_setCell_ne _ _ _ _ (updTextCol_ne_fixed (cR + 1)).2.1]

/-- The whole new-lead append (lines 156–170) preserves the table
invariant. -/
theorem entry_saved_inv (t : Int) (name district branch note dateStr : String) (df : DF)
    (hnote : note ≠ "") (hdate : (parseDate dateStr).isSome = true)
    (hex : leadExists df name = false) (hinv : dfInv df) :
    dfInv (highlight_inactivity t
      (concatRow df (newLeadRow name district branch note dateStr))) := by
  obtain ⟨hall, hpw⟩ := hinv
  rw [highlight_nonempty t _ (entry_cols_ud_ne_nil name district branch note dateStr df)]
  set newRow := newLeadRow name district branch note dateStr with hnewRow
  set dfc := concatRow df newRow with hdfc
  have hrows : dfc.rows = df.rows ++ [newRow] := rfl
  have hcolsc : ∀ x ∈ df.cols, x ∈ dfc.cols := by
    intro x hx
    exact mem_foldl_addCol_of_mem_init _ _ x hx
  have hnewKeys : ∀ x ∈ rowKeys newRow, x ∈ dfc.cols := by
    intro x hx
    exact mem_foldl_addCol_of_mem _ _ x hx
  have hstage : ∀ r1 ∈ dfc.rows, rowInv r1 ∧ ∀ x ∈ rowKeys r1, x ∈ dfc.cols := by
    intro r1 hr1
    rw [hrows] at hr1
    rcases List.mem_append.mp hr1 with hr1 | hr1
    · exact ⟨(hall r1 hr1).1, fun x hx => hcolsc x ((hall r1 hr1).2 x hx)⟩
    · have : r1 = newRow := by simpa using hr1
      subst this
      exact ⟨newLeadRow_rowInv name district branch note dateStr hnote hdate, hnewKeys⟩
  clear_value newRow dfc
  have hcols4 : ∀ x ∈ dfc.cols,
      x ∈ addCol (addCol (addCol dfc.cols "Last Update Date") "Days Since Last Update")
        "Inactive" := by
    intro x hx
    exact mem_addCol_of_mem _ (mem_addCol_of_mem _ (mem_addCol_of_mem _ hx))
  constructor
  · intro r4 hr4
    obtain ⟨r1, hr1, rfl⟩ := List.mem_map.mp hr4
    obtain ⟨hr1inv, hr1wf⟩ := hstage r1 hr1
    constructor
    · exact processRow_rowInv t dfc.cols r1 hr1inv hr1wf
    · intro x hx
      rcases rowKeys_processRow t _ r1 x hx with hx | hx | hx | hx | hx
      · exact hcols4 x (hr1wf x hx)
      · exact hcols4 x (List.mem_of_mem_filter hx)
      · subst hx
        exact mem_addCol_of_mem _ (mem_addCol_of_mem _ (mem_addCol_self _ _))
      · subst hx
        exact mem_addCol_of_mem _ (mem_addCol_self _ _)
      · subst hx
        exact mem_addCol_self _ _
  · apply pairwise_names_map
    · intro r
      exact getCell_processRow_frame t _ r "Lead Name"
        (not_mem_updateDateCols (by decide) _) (by decide) (by decide) (by decide)
    · rw [hrows, List.pairwise_append]
      refine ⟨hpw, by simp, ?_⟩
      intro a ha b hb
      have hbnew : b = newRow := by simpa using hb
      subst hbnew
      rw [hnewRow, (newLeadRow_cells name district branch note dateStr).1]
      have := List.any_eq_false.mp hex a ha
      intro heq
      rw [nameMask] at this
      rw [heq] at this
      simp at this

/-- One sidebar interaction preserves the table invariant (provided the
submitted date, which always comes from the `st.date_input` widget through
`strftime`, is a well-formed date). -/
theorem stepTable_inv (df : DF) (inp : SubmitInput)
    (hdate : (parseDate inp.dateStr).isSome = true) (hinv : dfInv df) :
    dfInv (stepTable df inp) := by
  unfold stepTable submitLead
  by_cases hcond : inp.name ≠ "" ∧ leadExists df inp.name
  · rw [if_pos hcond]
    unfold update_form_submit
    by_cases hn : inp.note = ""
    · rw [if_pos hn]
      exact hinv
    · rw [if_neg hn]
      cases hfind : df.rows.find? (nameMask inp.name) with
      | none =>
        simp only [hfind]
        exact hinv
      | some r0 =>
        cases hcnt : toCount (getCell r0 "Update Count") with
        | none =>
          simp only [hfind, hcnt]
          exact hinv
        | some c0 =>
          simp only [hfind, hcnt]
          exact update_saved_inv inp.name inp.note inp.dateStr df r0 c0 hn hfind hcnt
            hdate hinv
  · rw [if_neg hcond]
    by_cases hg : inp.name = "" ∨ inp.phone = "" ∨ inp.note = ""
    · unfold entry_form_submit
      rw [if_pos hg]
      exact hinv
    · have hname : inp.name ≠ "" := fun h => hg (Or.inl h)
      have hphone : inp.phone ≠ "" := fun h => hg (Or.inr (Or.inl h))
      have hnote : inp.note ≠ "" := fun h => hg (Or.inr (Or.inr h))
      have hex : leadExists df inp.name = false := by
        cases h : leadExists df inp.name
        · rfl
        · exact absurd ⟨hname, by rw [h]⟩ hcond
      rw [entry_form_submit_saved inp.t inp.name inp.district inp.branch inp.phone
        inp.note inp.dateStr df hname hphone hnote]
      exact entry_saved_inv inp.t inp.name inp.district inp.branch inp.note inp.dateStr
        df hnote hdate hex hinv

theorem foldl_stepTable_inv (script : List SubmitInput) (df : DF)
    (hd : ∀ inp ∈ script, (parseDate inp.dateStr).isSome = true) (h : dfInv df) :
    dfInv (script.foldl stepTable df) := by
  induction script generalizing df with
  | nil => exact h
  | cons a l ih =>
    exact ih (stepTable df a) (fun inp hm => hd inp (List.mem_cons.mpr (Or.inr hm)))
      (stepTable_inv df a (hd a (List.mem_cons.mpr (Or.inl rfl))) h)

/-- **C3.**  After any sequence of sidebar submissions starting from the
empty table (each carrying a well-formed date, as `st.date_input` +
`strftime` always produce), every row's `Update Count` cell holds an
integer `c` and the populated update columns of that row are exactly
`1, …, c`: text cells non-empty and date cells well-formed up to the
count, blank above it — no gaps and no reuse, however updates to
different leads interleave.  Lead names also stay pairwise distinct. -/
theorem C3_update_counts_dense (script : List SubmitInput)
    (hd : ∀ inp ∈ script, (parseDate inp.dateStr).isSome = true) :
    dfInv (runScript script) := by
  unfold runScript
  apply foldl_stepTable_inv script emptyDF hd
  constructor
  · intro r hr
    cases hr
  · exact List.Pairwise.nil

/-- Concrete script for the C3 witness: three submissions, interleaving
two leads. -/
def c3script : List SubmitInput :=
  [⟨0, "A", "D", "B", "p1", "first", "2025-01-01"⟩,
   ⟨0, "B2", "D", "B", "p2", "bfirst", "2025-01-02"⟩,
   ⟨0, "A", "D", "B", "p1", "second", "2025-01-03"⟩]

theorem C3_update_counts_dense_witness :
    (∀ inp ∈ c3script, (parseDate inp.dateStr).isSome = true) ∧ dfInv (runScript c3script) :=
  ⟨by decide, C3_update_counts_dense c3script (by decide)⟩

end StudentUpdate
